import Mathlib

/-!
Shallow embedding of the metrics-derivation core of the per-state
damage-prediction repository (the `transform` module: CSV-independent
data pipeline).  JavaScript numbers are modelled by `ℚ` (the pipeline
performs only field arithmetic on its inputs), `null` by `Option`,
JS `Map` by an association list with in-place update (insertion order
preserved, `set` keeps the original position of an existing key, `get`
returns the stored value), JS `Set` by a first-occurrence
deduplicated list, and `Array.prototype.sort` (a stable sort under a
consistent comparator) by a stable insertion sort.

The source keys its join maps by the concatenated string
`state + "-" + year` and recovers the pair with `split('-')`; for the
data model's region codes (which never contain the delimiter) and
non-negative years this string is in bijection with the pair
`(state, year)`, so keys are modelled as pairs.

`String.localeCompare` on uppercase ASCII region codes and the default
(string-comparing) `Array.prototype.sort` comparator are modelled by
lexicographic comparison of the code points of the string data.
-/

/-- Row of the transmission (volume) CSV: `{state, year, transmissions}`. -/
structure TransmissionRecord where
  state : String
  year : Nat
  transmissions : ℚ
deriving DecidableEq

/-- Row of the damage (event) CSV: `{state, year, total_damages}`. -/
structure DamageRecord where
  state : String
  year : Nat
  total_damages : ℚ
deriving DecidableEq

/-- The unit of pipeline output, mirroring the `StateYearMetrics` interface. -/
structure StateYearMetrics where
  state : String
  year : Nat
  transmissions : ℚ
  actual_damages : ℚ
  damage_rate : Option ℚ
  expected_damage_rate : Option ℚ
  expected_damages : Option ℚ
  residual : Option ℚ
  residual_pct : Option ℚ
deriving DecidableEq

/-- JS `Map.get`: the value stored at the key, if present. -/
def getM {κ ν : Type} [DecidableEq κ] : List (κ × ν) → κ → Option ν
  | [], _ => none
  | (k1, v1) :: rest, k => if k1 = k then some v1 else getM rest k

/-- JS `Map.set`: replace in place if the key exists, else append. -/
def upsert {κ ν : Type} [DecidableEq κ] : List (κ × ν) → κ → ν → List (κ × ν)
  | [], k, v => [(k, v)]
  | (k1, v1) :: rest, k, v =>
    if k1 = k then (k, v) :: rest else (k1, v1) :: upsert rest k v

/-- JS `Set.add`: append the element unless it is already present. -/
def insertKey {κ : Type} [DecidableEq κ] (ks : List κ) (k : κ) : List κ :=
  if k ∈ ks then ks else ks ++ [k]

/-- Collect a list into a JS `Set` (first-occurrence order, no duplicates). -/
def dedupKeys {κ : Type} [DecidableEq κ] (l : List κ) : List κ :=
  l.foldl insertKey []

/-- One step of a stable insertion sort: `le x y` means `x` may be placed
before `y` (the JS comparator returned `≤ 0` on `(x, y)`). -/
def insertSorted {α : Type} (le : α → α → Bool) (x : α) : List α → List α
  | [] => [x]
  | y :: ys => if le x y then x :: y :: ys else y :: insertSorted le x ys

/-- Stable sort; for a consistent comparator this is extensionally
`Array.prototype.sort` (whose output, sorted and stable, is unique). -/
def sortJs {α : Type} (le : α → α → Bool) (l : List α) : List α :=
  l.foldr (insertSorted le) []

/-- Code-point comparison of character lists (lexicographic). -/
def listCharLt : List Char → List Char → Bool
  | [], [] => false
  | [], _ :: _ => true
  | _ :: _, [] => false
  | a :: as, b :: bs =>
    if a.toNat < b.toNat then true
    else if b.toNat < a.toNat then false
    else listCharLt as bs

/-- Model of `localeCompare < 0` on region codes: lexicographic order. -/
def strLt (s t : String) : Bool := listCharLt s.data t.data

/-- Threshold for meaningful residual percentage (module constant, 0 in the
source: show all residuals regardless of magnitude). -/
def MEANINGFUL_RESIDUAL_THRESHOLD : ℚ := 0

/-- `calculateDamageRate`: `(damages / transmissions) * 10000`, `null` when
`transmissions <= 0`. -/
def calculateDamageRate (damages transmissions : ℚ) : Option ℚ :=
  if transmissions ≤ 0 then none
  else some (damages / transmissions * 10000)

/-- The `metricsMap.get(state) || []` lookup of a state's metric history. -/
def stateHistoryOf (metricsMap : List (String × List StateYearMetrics))
    (state : String) : List StateYearMetrics :=
  (getM metricsMap state).getD []

/-- Comparator `(a, b) => b.year - a.year` (most recent first). -/
def descByYear (a b : StateYearMetrics) : Bool := decide (b.year ≤ a.year)

/-- Comparator `(a, b) => a.year - b.year` (chronological). -/
def ascByYear (a b : StateYearMetrics) : Bool := decide (a.year ≤ b.year)

/-- The filtered history used by the estimator: prior years
(`m.year < year`) with non-null `damage_rate`. -/
def priorMetricsOf (metricsMap : List (String × List StateYearMetrics))
    (state : String) (year : Nat) : List StateYearMetrics :=
  (stateHistoryOf metricsMap state).filter
    (fun m => decide (m.year < year) && m.damage_rate.isSome)

/-- `calculateExpectedDamageRate`: mean of up to the 3 most recent prior
years of the state's own rates, else the national average of `year - 1`,
else `null`. -/
def calculateExpectedDamageRate (state : String) (year : Nat)
    (metricsMap : List (String × List StateYearMetrics))
    (nationalAvgRate : List (Int × ℚ)) : Option ℚ :=
  let priorRates :=
    ((sortJs descByYear (priorMetricsOf metricsMap state year)).take 3).map
      (fun m => m.damage_rate.getD 0)
  if 0 < priorRates.length then
    some (priorRates.foldl (fun sum rate => sum + rate) 0 / (priorRates.length : ℚ))
  else
    getM nationalAvgRate ((year : Int) - 1)

/-- The per-year accumulator of `calculateNationalAverages`. -/
structure YearTotals where
  damages : ℚ
  transmissions : ℚ
deriving DecidableEq

/-- One step of `// Sum transmissions by year`. -/
def addTransmissionTotal (acc : List (Int × YearTotals))
    (t : TransmissionRecord) : List (Int × YearTotals) :=
  let existing := (getM acc (t.year : Int)).getD ⟨0, 0⟩
  upsert acc (t.year : Int)
    ⟨existing.damages, existing.transmissions + t.transmissions⟩

/-- One step of `// Sum damages by year`. -/
def addDamageTotal (acc : List (Int × YearTotals)) (d : DamageRecord) :
    List (Int × YearTotals) :=
  let existing := (getM acc (d.year : Int)).getD ⟨0, 0⟩
  upsert acc (d.year : Int)
    ⟨existing.damages + d.total_damages, existing.transmissions⟩

/-- The `yearTotals` map: transmissions summed first, then damages. -/
def yearTotalsOf (transmissions : List TransmissionRecord)
    (damages : List DamageRecord) : List (Int × YearTotals) :=
  damages.foldl addDamageTotal (transmissions.foldl addTransmissionTotal [])

/-- One step of `// Calculate rate for each year`: keep the year only when
its rate is non-null. -/
def addNationalRate (acc : List (Int × ℚ)) (yt : Int × YearTotals) :
    List (Int × ℚ) :=
  match calculateDamageRate yt.2.damages yt.2.transmissions with
  | some rate => upsert acc yt.1 rate
  | none => acc

/-- `calculateNationalAverages`: per-year nationwide totals (both sides
summed independently over every record), then one rate per year via
`calculateDamageRate`, omitting years whose rate is null. -/
def calculateNationalAverages (transmissions : List TransmissionRecord)
    (damages : List DamageRecord) : List (Int × ℚ) :=
  (yearTotalsOf transmissions damages).foldl addNationalRate []

/-- The `(state, year)` join key of a transmission record. -/
def keyOfT (t : TransmissionRecord) : String × Nat := (t.state, t.year)

/-- The `(state, year)` join key of a damage record. -/
def keyOfD (d : DamageRecord) : String × Nat := (d.state, d.year)

/-- The `transmissionMap` lookup table (last record wins per key). -/
def transmissionMapOf (transmissions : List TransmissionRecord) :
    List ((String × Nat) × TransmissionRecord) :=
  transmissions.foldl (fun acc t => upsert acc (keyOfT t) t) []

/-- The `damageMap` lookup table (last record wins per key). -/
def damageMapOf (damages : List DamageRecord) :
    List ((String × Nat) × DamageRecord) :=
  damages.foldl (fun acc d => upsert acc (keyOfD d) d) []

/-- All unique state-year keys of either input, in first-occurrence order. -/
def allKeysOf (transmissions : List TransmissionRecord)
    (damages : List DamageRecord) : List (String × Nat) :=
  dedupKeys (transmissions.map keyOfT ++ damages.map keyOfD)

/-- `transmissionRecord?.transmissions ?? 0` for a key. -/
def resolvedTransmissions
    (transmissionMap : List ((String × Nat) × TransmissionRecord))
    (key : String × Nat) : ℚ :=
  ((getM transmissionMap key).map (fun t => t.transmissions)).getD 0

/-- `damageRecord?.total_damages ?? 0` for a key. -/
def resolvedDamages (damageMap : List ((String × Nat) × DamageRecord))
    (key : String × Nat) : ℚ :=
  ((getM damageMap key).map (fun d => d.total_damages)).getD 0

/-- First-pass construction of one `StateYearMetrics` for a key: resolved
counts, actual rate, expected fields initialized to null. -/
def mkMetric (transmissionMap : List ((String × Nat) × TransmissionRecord))
    (damageMap : List ((String × Nat) × DamageRecord))
    (key : String × Nat) : StateYearMetrics :=
  { state := key.1
    year := key.2
    transmissions := resolvedTransmissions transmissionMap key
    actual_damages := resolvedDamages damageMap key
    damage_rate := calculateDamageRate (resolvedDamages damageMap key)
      (resolvedTransmissions transmissionMap key)
    expected_damage_rate := none
    expected_damages := none
    residual := none
    residual_pct := none }

/-- Keys surviving the `if (transmissionCount <= 0) continue` guard. -/
def keptKeysOf (transmissions : List TransmissionRecord)
    (damages : List DamageRecord) : List (String × Nat) :=
  (allKeysOf transmissions damages).filter
    (fun key => !decide (resolvedTransmissions (transmissionMapOf transmissions) key ≤ 0))

/-- The first-pass flat `allMetrics` list, in key order. -/
def allMetricsOf (transmissions : List TransmissionRecord)
    (damages : List DamageRecord) : List StateYearMetrics :=
  (keptKeysOf transmissions damages).map
    (mkMetric (transmissionMapOf transmissions) (damageMapOf damages))

/-- One step of building `metricsMap`: `stateMetrics.push(metric)` followed
by `metricsMap.set(state, stateMetrics)`. -/
def pushGroup (acc : List (String × List StateYearMetrics))
    (m : StateYearMetrics) : List (String × List StateYearMetrics) :=
  upsert acc m.state (((getM acc m.state).getD []) ++ [m])

/-- The per-state index of first-pass metrics, in insertion order. -/
def groupByState (ms : List StateYearMetrics) :
    List (String × List StateYearMetrics) :=
  ms.foldl pushGroup []

/-- Apply a function to every value of an association list. -/
def mapValues {κ α β : Type} (f : α → β) (l : List (κ × α)) : List (κ × β) :=
  l.map (fun kv => (kv.1, f kv.2))

/-- The `metricsMap` after each state's list is sorted by year ascending. -/
def metricsMapOf (transmissions : List TransmissionRecord)
    (damages : List DamageRecord) : List (String × List StateYearMetrics) :=
  mapValues (sortJs ascByYear) (groupByState (allMetricsOf transmissions damages))

/-- Second pass for one metric: fill `expected_damage_rate`, then the
materiality-gated `expected_damages` / `residual` / `residual_pct`. -/
def applyExpected (metricsMap : List (String × List StateYearMetrics))
    (nationalAvgRate : List (Int × ℚ)) (metric : StateYearMetrics) :
    StateYearMetrics :=
  let expectedRate :=
    calculateExpectedDamageRate metric.state metric.year metricsMap nationalAvgRate
  let base := { metric with expected_damage_rate := expectedRate }
  match expectedRate with
  | none => base
  | some er =>
    if 0 < metric.transmissions then
      let rawExpectedDamages := metric.transmissions * er / 10000
      if 0 < rawExpectedDamages then
        let rawResidual := metric.actual_damages - rawExpectedDamages
        let rawResidualPct := rawResidual / rawExpectedDamages
        if MEANINGFUL_RESIDUAL_THRESHOLD ≤ |rawResidualPct| then
          { base with
              expected_damages := some rawExpectedDamages
              residual := some rawResidual
              residual_pct := some rawResidualPct }
        else base
      else base
    else base

/-- The final comparator: region code lexicographic, then year ascending. -/
def finalLe (a b : StateYearMetrics) : Bool :=
  if a.state = b.state then decide (a.year ≤ b.year) else strLt a.state b.state

/-- `transformData`: join both inputs by state-year key, compute actual
rates, fill expected rates and materiality-gated residuals, and sort by
state then year. -/
def transformData (transmissions : List TransmissionRecord)
    (damages : List DamageRecord) : List StateYearMetrics :=
  sortJs finalLe
    ((allMetricsOf transmissions damages).map
      (applyExpected (metricsMapOf transmissions damages)
        (calculateNationalAverages transmissions damages)))

/-- Default `Array.prototype.sort` comparator on numbers: compare the
decimal string forms lexicographically. -/
def numericStringLe (a b : Nat) : Bool := !(strLt (Nat.repr b) (Nat.repr a))

/-- `getAvailableYears`: the years having at least one metric with a
non-null expected rate, deduplicated and sorted by the default (string)
comparator. -/
def getAvailableYears (metrics : List StateYearMetrics) : List Nat :=
  let yearsWithExpected := metrics.foldl
    (fun acc m => if m.expected_damage_rate.isSome then insertKey acc m.year else acc) []
  sortJs numericStringLe yearsWithExpected

/-- The last transmission record carrying a given state-year key, in input
list order (what last-wins map insertion resolves to). -/
def lastTransmissionFor (transmissions : List TransmissionRecord)
    (state : String) (year : Nat) : Option TransmissionRecord :=
  (transmissions.filter (fun t => decide (t.state = state ∧ t.year = year))).getLast?

/-- The last damage record carrying a given state-year key, in input list
order. -/
def lastDamageFor (damages : List DamageRecord)
    (state : String) (year : Nat) : Option DamageRecord :=
  (damages.filter (fun d => decide (d.state = state ∧ d.year = year))).getLast?

/-- The volume the join resolves for a state-year: the last matching
record's count, or 0 when absent. -/
def resolveVolume (transmissions : List TransmissionRecord)
    (state : String) (year : Nat) : ℚ :=
  ((lastTransmissionFor transmissions state year).map
    (fun t => t.transmissions)).getD 0

/-- The event count the join resolves for a state-year: the last matching
record's count, or 0 when absent. -/
def resolveDamageCount (damages : List DamageRecord)
    (state : String) (year : Nat) : ℚ :=
  ((lastDamageFor damages state year).map (fun d => d.total_damages)).getD 0

/-- Yearly nationwide transmission total: every record of that year summed,
duplicates included. -/
def sumVolume (transmissions : List TransmissionRecord) (i : Int) : ℚ :=
  ((transmissions.filter (fun t => decide ((t.year : Int) = i))).map
    (fun t => t.transmissions)).sum

/-- Yearly nationwide damage total: every record of that year summed,
duplicates included. -/
def sumDamages (damages : List DamageRecord) (i : Int) : ℚ :=
  ((damages.filter (fun d => decide ((d.year : Int) = i))).map
    (fun d => d.total_damages)).sum

/-- The value the last-wins fold keeps for a key: the last element of the
list whose key is `k`. -/
def lastSuch {α κ : Type} [DecidableEq κ] (f : α → κ) (l : List α) (k : κ) :
    Option α :=
  l.foldl (fun acc a => if f a = k then some a else acc) none

theorem getM_upsert {κ ν : Type} [DecidableEq κ] (l : List (κ × ν)) (k k1 : κ)
    (v : ν) : getM (upsert l k v) k1 = if k = k1 then some v else getM l k1 := by
  induction l with
  | nil =>
    by_cases h : k = k1 <;> simp [upsert, getM, h]
  | cons kv rest ih =>
    obtain ⟨k2, v2⟩ := kv
    by_cases h2 : k2 = k
    · subst h2
      by_cases h : k2 = k1 <;> simp [upsert, getM, h]
    · by_cases h : k2 = k1
      · subst h
        have hk : ¬ k = k2 := fun hc => h2 hc.symm
        simp [upsert, getM, h2, hk]
      · simp [upsert, getM, h2, h, ih]

theorem foldl_lastStep {α κ : Type} [DecidableEq κ] (f : α → κ) (l : List α)
    (k : κ) (acc0 : Option α) :
    l.foldl (fun acc a => if f a = k then some a else acc) acc0 =
      match lastSuch f l k with
      | some a => some a
      | none => acc0 := by
  induction l generalizing acc0 with
  | nil => simp [lastSuch]
  | cons a rest ih =>
    show rest.foldl _ (if f a = k then some a else acc0) = _
    rw [ih]
    have hl : lastSuch f (a :: rest) k =
        rest.foldl (fun acc b => if f b = k then some b else acc)
          (if f a = k then some a else none) := rfl
    rw [hl, ih]
    cases h : lastSuch f rest k with
    | some b => simp
    | none =>
      by_cases hfa : f a = k <;> simp [hfa]

theorem getM_foldl_upsert {α κ : Type} [DecidableEq κ] (f : α → κ)
    (l : List α) (init : List (κ × α)) (k : κ) :
    getM (l.foldl (fun acc a => upsert acc (f a) a) init) k =
      match lastSuch f l k with
      | some a => some a
      | none => getM init k := by
  induction l generalizing init with
  | nil => simp [lastSuch]
  | cons a rest ih =>
    show getM (rest.foldl _ (upsert init (f a) a)) k = _
    rw [ih]
    have hl : lastSuch f (a :: rest) k =
        rest.foldl (fun acc b => if f b = k then some b else acc)
          (if f a = k then some a else none) := rfl
    rw [hl, foldl_lastStep]
    cases h : lastSuch f rest k with
    | some b => simp
    | none =>
      by_cases hfa : f a = k <;> simp [hfa, getM_upsert]

theorem lastSuch_eq_getLast {α κ : Type} [DecidableEq κ] (f : α → κ)
    (l : List α) (k : κ) :
    lastSuch f l k = (l.filter (fun a => decide (f a = k))).getLast? := by
  induction l using List.reverseRecOn with
  | nil => simp [lastSuch]
  | append_singleton l a ih =>
    have h1 : lastSuch f (l ++ [a]) k =
        if f a = k then some a else lastSuch f l k := by
      simp [lastSuch, List.foldl_append]
    rw [h1, List.filter_append]
    by_cases hfa : f a = k
    · simp [hfa, List.getLast?_concat]
    · simp [hfa, ih]

theorem getM_transmissionMapOf (ts : List TransmissionRecord)
    (k : String × Nat) :
    getM (transmissionMapOf ts) k = lastSuch keyOfT ts k := by
  rw [transmissionMapOf, getM_foldl_upsert]
  cases h : lastSuch keyOfT ts k <;> simp [getM]

theorem getM_damageMapOf (ds : List DamageRecord) (k : String × Nat) :
    getM (damageMapOf ds) k = lastSuch keyOfD ds k := by
  rw [damageMapOf, getM_foldl_upsert]
  cases h : lastSuch keyOfD ds k <;> simp [getM]

theorem resolvedTransmissions_eq (ts : List TransmissionRecord) (s : String)
    (y : Nat) :
    resolvedTransmissions (transmissionMapOf ts) (s, y) = resolveVolume ts s y := by
  have hp : (fun t : TransmissionRecord => decide (keyOfT t = (s, y))) =
      fun t => decide (t.state = s ∧ t.year = y) := by
    funext t
    simp [keyOfT, Prod.ext_iff]
  rw [resolvedTransmissions, getM_transmissionMapOf, lastSuch_eq_getLast, hp]
  rfl

theorem resolvedDamages_eq (ds : List DamageRecord) (s : String) (y : Nat) :
    resolvedDamages (damageMapOf ds) (s, y) = resolveDamageCount ds s y := by
  have hp : (fun d : DamageRecord => decide (keyOfD d = (s, y))) =
      fun d => decide (d.state = s ∧ d.year = y) := by
    funext d
    simp [keyOfD, Prod.ext_iff]
  rw [resolvedDamages, getM_damageMapOf, lastSuch_eq_getLast, hp]
  rfl

theorem mem_insertKey {κ : Type} [DecidableEq κ] (ks : List κ) (k x : κ) :
    x ∈ insertKey ks k ↔ x ∈ ks ∨ x = k := by
  by_cases h : k ∈ ks
  · simp only [insertKey, if_pos h]
    constructor
    · exact Or.inl
    · rintro (hx | rfl)
      · exact hx
      · exact h
  · simp [insertKey, if_neg h]

theorem dedupKeys_append_singleton {κ : Type} [DecidableEq κ] (l : List κ)
    (k : κ) : dedupKeys (l ++ [k]) = insertKey (dedupKeys l) k := by
  simp [dedupKeys, List.foldl_append]

theorem mem_dedupKeys {κ : Type} [DecidableEq κ] (l : List κ) (x : κ) :
    x ∈ dedupKeys l ↔ x ∈ l := by
  induction l using List.reverseRecOn with
  | nil => simp [dedupKeys]
  | append_singleton l a ih =>
    rw [dedupKeys_append_singleton]
    simp [mem_insertKey, ih]

theorem nodup_dedupKeys {κ : Type} [DecidableEq κ] (l : List κ) :
    (dedupKeys l).Nodup := by
  induction l using List.reverseRecOn with
  | nil => simp [dedupKeys]
  | append_singleton l a ih =>
    rw [dedupKeys_append_singleton]
    by_cases h : a ∈ dedupKeys l
    · simpa [insertKey, if_pos h] using ih
    · rw [insertKey, if_neg h]
      simp only [List.nodup_append, List.nodup_cons]
      exact ⟨ih, by simp, by simpa using h⟩

theorem filter_dedupKeys {κ : Type} [DecidableEq κ] (p : κ → Bool)
    (l : List κ) : (dedupKeys l).filter p = dedupKeys (l.filter p) := by
  induction l using List.reverseRecOn with
  | nil => simp [dedupKeys]
  | append_singleton l a ih =>
    rw [dedupKeys_append_singleton, List.filter_append]
    by_cases hmem : a ∈ dedupKeys l
    · rw [insertKey, if_pos hmem]
      by_cases hp : p a
      · have ham : a ∈ dedupKeys (l.filter p) := by
          rw [mem_dedupKeys, List.mem_filter]
          exact ⟨(mem_dedupKeys l a).1 hmem, hp⟩
        simp [hp, ih, dedupKeys_append_singleton, insertKey, ham]
      · simp [hp, ih]
    · rw [insertKey, if_neg hmem]
      by_cases hp : p a
      · have ham : a ∉ dedupKeys (l.filter p) := by
          rw [mem_dedupKeys, List.mem_filter]
          rintro ⟨hmem2, _⟩
          exact hmem ((mem_dedupKeys l a).2 hmem2)
        simp [List.filter_append, hp, ih, dedupKeys_append_singleton, insertKey, ham]
      · simp [List.filter_append, hp, ih]

theorem perm_insertSorted {α : Type} (le : α → α → Bool) (x : α)
    (l : List α) : List.Perm (insertSorted le x l) (x :: l) := by
  induction l with
  | nil => simp [insertSorted]
  | cons y ys ih =>
    by_cases h : le x y
    · simp [insertSorted, h]
    · rw [insertSorted, if_neg h]
      exact List.Perm.trans (List.Perm.cons y ih) (List.Perm.swap x y ys)

theorem perm_sortJs {α : Type} (le : α → α → Bool) (l : List α) :
    List.Perm (sortJs le l) l := by
  induction l with
  | nil => simp [sortJs]
  | cons x xs ih =>
    have h1 : sortJs le (x :: xs) = insertSorted le x (sortJs le xs) := rfl
    rw [h1]
    exact List.Perm.trans (perm_insertSorted le x (sortJs le xs))
      (List.Perm.cons x ih)

theorem pairwise_insertSorted {α : Type} (le : α → α → Bool)
    (htot : ∀ a b, le a b = true ∨ le b a = true)
    (htrans : ∀ a b c, le a b = true → le b c = true → le a c = true)
    (x : α) (l : List α) (hl : List.Pairwise (fun a b => le a b = true) l) :
    List.Pairwise (fun a b => le a b = true) (insertSorted le x l) := by
  induction l with
  | nil => simp [insertSorted]
  | cons y ys ih =>
    rcases hl with _ | ⟨hy, hys⟩
    by_cases h : le x y
    · rw [insertSorted, if_pos h]
      refine List.Pairwise.cons ?_ (List.Pairwise.cons hy hys)
      intro b hb
      rcases List.mem_cons.1 hb with rfl | hb2
      · exact h
      · exact htrans x y b h (hy b hb2)
    · rw [insertSorted, if_neg h]
      refine List.Pairwise.cons ?_ (ih hys)
      intro b hb
      have hmem := (perm_insertSorted le x ys).mem_iff.1 hb
      rcases List.mem_cons.1 hmem with rfl | hbys
      · rcases htot b y with hxy | hyx
        · exact absurd hxy h
        · exact hyx
      · exact hy b hbys

theorem pairwise_sortJs {α : Type} (le : α → α → Bool)
    (htot : ∀ a b, le a b = true ∨ le b a = true)
    (htrans : ∀ a b c, le a b = true → le b c = true → le a c = true)
    (l : List α) :
    List.Pairwise (fun a b => le a b = true) (sortJs le l) := by
  induction l with
  | nil => simp [sortJs]
  | cons x xs ih =>
    exact pairwise_insertSorted le htot htrans x (sortJs le xs) ih

theorem filter_insertSorted {α : Type} (le : α → α → Bool) (p : α → Bool)
    (htot : ∀ a b, le a b = true ∨ le b a = true)
    (htrans : ∀ a b c, le a b = true → le b c = true → le a c = true)
    (x : α) (l : List α) (hl : List.Pairwise (fun a b => le a b = true) l) :
    (insertSorted le x l).filter p =
      if p x then insertSorted le x (l.filter p) else l.filter p := by
  induction l with
  | nil =>
    by_cases hp : p x <;> simp [insertSorted, hp]
  | cons y ys ih =>
    rcases hl with _ | ⟨hy, hys⟩
    by_cases h : le x y
    · rw [insertSorted, if_pos h]
      by_cases hp : p x
      · by_cases hpy : p y
        · have h2 : (y :: ys).filter p = y :: ys.filter p := by simp [hpy]
          rw [List.filter_cons_of_pos hp, h2, insertSorted, if_pos h, if_pos hp]
        · have h2 : (y :: ys).filter p = ys.filter p := by simp [hpy]
          rw [List.filter_cons_of_pos hp, h2, if_pos hp]
          cases hys2 : ys.filter p with
          | nil => simp [insertSorted]
          | cons z zs =>
            have hz : z ∈ ys.filter p := by rw [hys2]; exact List.mem_cons_self z zs
            have hz2 : z ∈ ys := (List.mem_filter.1 hz).1
            have hxz : le x z = true := htrans x y z h (hy z hz2)
            rw [insertSorted, if_pos hxz]
      · by_cases hpy : p y <;> simp [hp, hpy]
    · rw [insertSorted, if_neg h]
      by_cases hp : p x
      · by_cases hpy : p y
        · rw [List.filter_cons_of_pos hpy, List.filter_cons_of_pos hpy,
            ih hys, if_pos hp, if_pos hp, insertSorted, if_neg h]
        · rw [List.filter_cons_of_neg hpy, List.filter_cons_of_neg hpy,
            ih hys, if_pos hp]
      · by_cases hpy : p y
        · rw [List.filter_cons_of_pos hpy, List.filter_cons_of_pos hpy,
            ih hys, if_neg hp, if_neg hp]
        · rw [List.filter_cons_of_neg hpy, List.filter_cons_of_neg hpy,
            ih hys, if_neg hp]

theorem filter_sortJs {α : Type} (le : α → α → Bool) (p : α → Bool)
    (htot : ∀ a b, le a b = true ∨ le b a = true)
    (htrans : ∀ a b c, le a b = true → le b c = true → le a c = true)
    (l : List α) :
    (sortJs le l).filter p = sortJs le (l.filter p) := by
  induction l with
  | nil => simp [sortJs]
  | cons x xs ih =>
    have h1 : sortJs le (x :: xs) = insertSorted le x (sortJs le xs) := rfl
    rw [h1, filter_insertSorted le p htot htrans x (sortJs le xs)
      (pairwise_sortJs le htot htrans xs)]
    by_cases hp : p x
    · rw [if_pos hp, List.filter_cons_of_pos hp, ih]
      rfl
    · rw [if_neg hp, List.filter_cons_of_neg hp, ih]

theorem insertSorted_append_last {α : Type} (le : α → α → Bool) (x m : α)
    (hxm : le x m = true) (l : List α) :
    insertSorted le x (l ++ [m]) = insertSorted le x l ++ [m] := by
  induction l with
  | nil => simp [insertSorted, hxm]
  | cons y ys ih =>
    by_cases h : le x y
    · simp [insertSorted, h]
    · simp [insertSorted, h, ih]

theorem sortJs_append_last {α : Type} (le : α → α → Bool) (m : α)
    (l : List α) (hall : ∀ x ∈ l, le x m = true) :
    sortJs le (l ++ [m]) = sortJs le l ++ [m] := by
  induction l with
  | nil => simp [sortJs, insertSorted]
  | cons x xs ih =>
    have h1 : sortJs le ((x :: xs) ++ [m]) =
        insertSorted le x (sortJs le (xs ++ [m])) := rfl
    rw [h1, ih (fun a ha => hall a (List.mem_cons_of_mem x ha)),
      insertSorted_append_last le x m (hall x (List.mem_cons_self x xs))]
    rfl

theorem listCharLt_trans (a b c : List Char) (hab : listCharLt a b = true)
    (hbc : listCharLt b c = true) : listCharLt a c = true := by
  induction a generalizing b c with
  | nil =>
    cases b with
    | nil => simp [listCharLt] at hab
    | cons y ys =>
      cases c with
      | nil => simp [listCharLt] at hbc
      | cons z zs => simp [listCharLt]
  | cons x xs ih =>
    cases b with
    | nil => simp [listCharLt] at hab
    | cons y ys =>
      cases c with
      | nil => simp [listCharLt] at hbc
      | cons z zs =>
        rw [listCharLt] at hab hbc ⊢
        by_cases hxy : x.toNat < y.toNat
        · by_cases hyz : y.toNat < z.toNat
          · have hxz : x.toNat < z.toNat := Nat.lt_trans hxy hyz
            simp [hxz]
          · by_cases hzy : z.toNat < y.toNat
            · simp [hyz, hzy] at hbc
            · have hyz2 : y.toNat = z.toNat := Nat.le_antisymm
                (Nat.le_of_not_lt hzy) (Nat.le_of_not_lt hyz)
              have hxz : x.toNat < z.toNat := hyz2 ▸ hxy
              simp [hxz]
        · by_cases hyx : y.toNat < x.toNat
          · simp [hxy, hyx] at hab
          · have hxy2 : x.toNat = y.toNat := Nat.le_antisymm
              (Nat.le_of_not_lt hyx) (Nat.le_of_not_lt hxy)
            rw [if_neg hxy, if_neg hyx] at hab
            by_cases hyz : y.toNat < z.toNat
            · have hxz : x.toNat < z.toNat := hxy2 ▸ hyz
              simp [hxz]
            · by_cases hzy : z.toNat < y.toNat
              · simp [hyz, hzy] at hbc
              · rw [if_neg hyz, if_neg hzy] at hbc
                have hxz : ¬ x.toNat < z.toNat := by
                  rw [hxy2]
                  exact hyz
                have hzx : ¬ z.toNat < x.toNat := by
                  rw [hxy2]
                  exact hzy
                rw [if_neg hxz, if_neg hzx]
                exact ih ys zs hab hbc

theorem listCharLt_asymm (a b : List Char) (hab : listCharLt a b = true) :
    listCharLt b a = false := by
  induction a generalizing b with
  | nil =>
    cases b with
    | nil => simp [listCharLt] at hab
    | cons y ys => simp [listCharLt]
  | cons x xs ih =>
    cases b with
    | nil => simp [listCharLt] at hab
    | cons y ys =>
      rw [listCharLt] at hab ⊢
      by_cases hxy : x.toNat < y.toNat
      · have hyx : ¬ y.toNat < x.toNat := Nat.lt_asymm hxy
        simp [hyx, hxy]
      · by_cases hyx : y.toNat < x.toNat
        · simp [hxy, hyx] at hab
        · rw [if_neg hxy, if_neg hyx] at hab
          rw [if_neg hyx, if_neg hxy]
          exact ih ys hab

theorem listCharLt_conn (a b : List Char) (hab : listCharLt a b = false)
    (hba : listCharLt b a = false) : a = b := by
  induction a generalizing b with
  | nil =>
    cases b with
    | nil => rfl
    | cons y ys => simp [listCharLt] at hab
  | cons x xs ih =>
    cases b with
    | nil => simp [listCharLt] at hba
    | cons y ys =>
      rw [listCharLt] at hab hba
      by_cases hxy : x.toNat < y.toNat
      · simp [hxy] at hab
      · by_cases hyx : y.toNat < x.toNat
        · simp [hyx, Nat.lt_asymm hyx] at hba
        · rw [if_neg hxy, if_neg hyx] at hab
          rw [if_neg hyx, if_neg hxy] at hba
          have hchar : x = y := by
            have hn : x.toNat = y.toNat := Nat.le_antisymm
              (Nat.le_of_not_lt hyx) (Nat.le_of_not_lt hxy)
            exact Char.ext (UInt32.ext hn)
          rw [hchar, ih ys hab hba]

theorem strLt_trans (a b c : String) (hab : strLt a b = true)
    (hbc : strLt b c = true) : strLt a c = true :=
  listCharLt_trans a.data b.data c.data hab hbc

theorem strLt_asymm (a b : String) (hab : strLt a b = true) :
    strLt b a = false :=
  listCharLt_asymm a.data b.data hab

theorem strLt_conn (a b : String) (hab : strLt a b = false)
    (hba : strLt b a = false) : a = b := by
  have hd : a.data = b.data := listCharLt_conn a.data b.data hab hba
  cases a
  cases b
  simp only at hd
  rw [hd]

theorem descByYear_total (a b : StateYearMetrics) :
    descByYear a b = true ∨ descByYear b a = true := by
  unfold descByYear
  rcases Nat.le_total b.year a.year with h | h
  · left; simpa using h
  · right; simpa using h

theorem descByYear_trans (a b c : StateYearMetrics)
    (hab : descByYear a b = true) (hbc : descByYear b c = true) :
    descByYear a c = true := by
  unfold descByYear at hab hbc ⊢
  simp only [decide_eq_true_eq] at hab hbc ⊢
  exact Nat.le_trans hbc hab

theorem ascByYear_total (a b : StateYearMetrics) :
    ascByYear a b = true ∨ ascByYear b a = true := by
  unfold ascByYear
  rcases Nat.le_total a.year b.year with h | h
  · left; simpa using h
  · right; simpa using h

theorem ascByYear_trans (a b c : StateYearMetrics)
    (hab : ascByYear a b = true) (hbc : ascByYear b c = true) :
    ascByYear a c = true := by
  unfold ascByYear at hab hbc ⊢
  simp only [decide_eq_true_eq] at hab hbc ⊢
  exact Nat.le_trans hab hbc

theorem finalLe_total (a b : StateYearMetrics) :
    finalLe a b = true ∨ finalLe b a = true := by
  unfold finalLe
  by_cases h : a.state = b.state
  · rw [if_pos h, if_pos h.symm]
    rcases Nat.le_total a.year b.year with h2 | h2
    · left; simpa using h2
    · right; simpa using h2
  · have h2 : ¬ b.state = a.state := fun hc => h hc.symm
    rw [if_neg h, if_neg h2]
    by_cases hlt : strLt a.state b.state = true
    · exact Or.inl hlt
    · right
      have h3 : strLt a.state b.state = false := by
        simpa using hlt
      by_cases hlt2 : strLt b.state a.state = true
      · exact hlt2
      · have h4 : strLt b.state a.state = false := by
          simpa using hlt2
        exact absurd (strLt_conn a.state b.state h3 h4) h

theorem finalLe_trans (a b c : StateYearMetrics)
    (hab : finalLe a b = true) (hbc : finalLe b c = true) :
    finalLe a c = true := by
  unfold finalLe at hab hbc ⊢
  by_cases h1 : a.state = b.state
  · by_cases h2 : b.state = c.state
    · have h3 : a.state = c.state := h1.trans h2
      rw [if_pos h1] at hab
      rw [if_pos h2] at hbc
      rw [if_pos h3]
      simp only [decide_eq_true_eq] at hab hbc ⊢
      exact Nat.le_trans hab hbc
    · have h3 : ¬ a.state = c.state := fun hc => h2 (h1.symm.trans hc)
      rw [if_neg h2] at hbc
      rw [if_neg h3, h1]
      exact hbc
  · by_cases h2 : b.state = c.state
    · have h3 : ¬ a.state = c.state := fun hc => h1 (hc.trans h2.symm)
      rw [if_neg h1] at hab
      rw [if_neg h3, ← h2]
      exact hab
    · rw [if_neg h1] at hab
      rw [if_neg h2] at hbc
      have h4 : strLt a.state c.state = true := strLt_trans _ _ _ hab hbc
      by_cases h3 : a.state = c.state
      · exfalso
        rw [h3] at hab
        have h5 : strLt b.state c.state = false := strLt_asymm _ _ hab
        rw [h5] at hbc
        exact Bool.false_ne_true hbc
      · rw [if_neg h3]
        exact h4

theorem numericStringLe_total (a b : Nat) :
    numericStringLe a b = true ∨ numericStringLe b a = true := by
  unfold numericStringLe
  by_cases h : strLt (Nat.repr b) (Nat.repr a) = true
  · right
    rw [strLt_asymm _ _ h]
    rfl
  · left
    have h2 : strLt (Nat.repr b) (Nat.repr a) = false := by simpa using h
    rw [h2]
    rfl

theorem numericStringLe_trans (a b c : Nat)
    (hab : numericStringLe a b = true) (hbc : numericStringLe b c = true) :
    numericStringLe a c = true := by
  unfold numericStringLe at hab hbc ⊢
  simp only [Bool.not_eq_true', Bool.not_eq_false] at hab hbc
  simp only [Bool.not_eq_true']
  by_cases hca : strLt (Nat.repr c) (Nat.repr a) = true
  · by_cases h1 : strLt (Nat.repr a) (Nat.repr b) = true
    · have h2 : strLt (Nat.repr c) (Nat.repr b) = true := strLt_trans _ _ _ hca h1
      rw [h2] at hbc
      exact absurd hbc (by simp)
    · have h3 : Nat.repr a = Nat.repr b :=
        strLt_conn _ _ (by simpa using h1) hab
      rw [← h3] at hbc
      rw [hca] at hbc
      exact absurd hbc (by simp)
  · simpa using hca

theorem getM_pushGroup (acc : List (String × List StateYearMetrics))
    (m : StateYearMetrics) (s : String) :
    getM (pushGroup acc m) s =
      if m.state = s then some (((getM acc m.state).getD []) ++ [m])
      else getM acc s := by
  unfold pushGroup
  rw [getM_upsert]

theorem histD_foldl_pushGroup (ms : List StateYearMetrics)
    (acc : List (String × List StateYearMetrics)) (s : String) :
    (getM (ms.foldl pushGroup acc) s).getD [] =
      (getM acc s).getD [] ++ ms.filter (fun m => decide (m.state = s)) := by
  induction ms generalizing acc with
  | nil => simp
  | cons m rest ih =>
    show (getM (rest.foldl pushGroup (pushGroup acc m)) s).getD [] = _
    rw [ih]
    by_cases h : m.state = s
    · rw [List.filter_cons_of_pos (by simpa using h)]
      rw [getM_pushGroup, if_pos h, h]
      simp
    · rw [List.filter_cons_of_neg (by simpa using h)]
      rw [getM_pushGroup, if_neg h]

theorem getM_mapValues {κ α β : Type} [DecidableEq κ] (f : α → β)
    (l : List (κ × α)) (k : κ) :
    getM (mapValues f l) k = (getM l k).map f := by
  induction l with
  | nil => simp [mapValues, getM]
  | cons kv rest ih =>
    obtain ⟨k1, v1⟩ := kv
    by_cases h : k1 = k
    · simp [mapValues, getM, h]
    · simpa [mapValues, getM, h] using ih

theorem stateHistoryOf_metricsMapOf (ts : List TransmissionRecord)
    (ds : List DamageRecord) (s : String) :
    stateHistoryOf (metricsMapOf ts ds) s =
      sortJs ascByYear
        ((allMetricsOf ts ds).filter (fun m => decide (m.state = s))) := by
  unfold stateHistoryOf metricsMapOf
  rw [getM_mapValues]
  have h1 := histD_foldl_pushGroup (allMetricsOf ts ds) [] s
  cases h2 : getM (groupByState (allMetricsOf ts ds)) s with
  | none =>
    unfold groupByState at h2
    rw [h2] at h1
    simp only [getM, Option.getD_none, List.nil_append] at h1
    rw [← h1]
    simp [sortJs]
  | some hist =>
    unfold groupByState at h2
    rw [h2] at h1
    simp only [getM, Option.getD_none, Option.getD_some, List.nil_append] at h1
    rw [h1]
    simp

theorem applyExpected_state (mm : List (String × List StateYearMetrics))
    (na : List (Int × ℚ)) (m : StateYearMetrics) :
    (applyExpected mm na m).state = m.state := by
  unfold applyExpected
  cases calculateExpectedDamageRate m.state m.year mm na with
  | none => rfl
  | some er =>
    dsimp only
    split_ifs <;> rfl

theorem applyExpected_year (mm : List (String × List StateYearMetrics))
    (na : List (Int × ℚ)) (m : StateYearMetrics) :
    (applyExpected mm na m).year = m.year := by
  unfold applyExpected
  cases calculateExpectedDamageRate m.state m.year mm na with
  | none => rfl
  | some er =>
    dsimp only
    split_ifs <;> rfl

theorem applyExpected_transmissions (mm : List (String × List StateYearMetrics))
    (na : List (Int × ℚ)) (m : StateYearMetrics) :
    (applyExpected mm na m).transmissions = m.transmissions := by
  unfold applyExpected
  cases calculateExpectedDamageRate m.state m.year mm na with
  | none => rfl
  | some er =>
    dsimp only
    split_ifs <;> rfl

theorem applyExpected_actual_damages (mm : List (String × List StateYearMetrics))
    (na : List (Int × ℚ)) (m : StateYearMetrics) :
    (applyExpected mm na m).actual_damages = m.actual_damages := by
  unfold applyExpected
  cases calculateExpectedDamageRate m.state m.year mm na with
  | none => rfl
  | some er =>
    dsimp only
    split_ifs <;> rfl

theorem applyExpected_damage_rate (mm : List (String × List StateYearMetrics))
    (na : List (Int × ℚ)) (m : StateYearMetrics) :
    (applyExpected mm na m).damage_rate = m.damage_rate := by
  unfold applyExpected
  cases calculateExpectedDamageRate m.state m.year mm na with
  | none => rfl
  | some er =>
    dsimp only
    split_ifs <;> rfl

theorem applyExpected_expected_rate (mm : List (String × List StateYearMetrics))
    (na : List (Int × ℚ)) (m : StateYearMetrics) :
    (applyExpected mm na m).expected_damage_rate =
      calculateExpectedDamageRate m.state m.year mm na := by
  unfold applyExpected
  cases h : calculateExpectedDamageRate m.state m.year mm na with
  | none => rfl
  | some er =>
    dsimp only
    split_ifs <;> rfl

theorem perm_transformData (ts : List TransmissionRecord)
    (ds : List DamageRecord) :
    List.Perm (transformData ts ds)
      ((allMetricsOf ts ds).map
        (applyExpected (metricsMapOf ts ds) (calculateNationalAverages ts ds))) :=
  perm_sortJs finalLe _

theorem mem_transformData (ts : List TransmissionRecord)
    (ds : List DamageRecord) (m : StateYearMetrics) :
    m ∈ transformData ts ds ↔
      ∃ k ∈ keptKeysOf ts ds,
        m = applyExpected (metricsMapOf ts ds) (calculateNationalAverages ts ds)
          (mkMetric (transmissionMapOf ts) (damageMapOf ds) k) := by
  rw [(perm_transformData ts ds).mem_iff]
  unfold allMetricsOf
  rw [List.map_map, List.mem_map]
  constructor
  · rintro ⟨k, hk, rfl⟩
    exact ⟨k, hk, rfl⟩
  · rintro ⟨k, hk, rfl⟩
    exact ⟨k, hk, rfl⟩

theorem mem_keptKeysOf (ts : List TransmissionRecord)
    (ds : List DamageRecord) (k : String × Nat) :
    k ∈ keptKeysOf ts ds ↔
      k ∈ ts.map keyOfT ++ ds.map keyOfD ∧ 0 < resolveVolume ts k.1 k.2 := by
  unfold keptKeysOf allKeysOf
  rw [List.mem_filter, mem_dedupKeys]
  have hk : (k.1, k.2) = k := rfl
  rw [show resolvedTransmissions (transmissionMapOf ts) k =
      resolveVolume ts k.1 k.2 by
    rw [← hk]
    exact resolvedTransmissions_eq ts k.1 k.2]
  constructor
  · rintro ⟨h1, h2⟩
    refine ⟨h1, ?_⟩
    have h3 : ¬ resolveVolume ts k.1 k.2 ≤ 0 := by simpa using h2
    exact lt_of_not_le h3
  · rintro ⟨h1, h2⟩
    refine ⟨h1, ?_⟩
    simpa using not_le_of_lt h2

theorem nodup_keptKeysOf (ts : List TransmissionRecord)
    (ds : List DamageRecord) : (keptKeysOf ts ds).Nodup :=
  List.Nodup.filter _ (nodup_dedupKeys _)

theorem getM_foldl_addTransmissionTotal (ts : List TransmissionRecord)
    (acc : List (Int × YearTotals)) (i : Int) :
    getM (ts.foldl addTransmissionTotal acc) i =
      if ts.filter (fun t => decide ((t.year : Int) = i)) = [] then getM acc i
      else some ⟨((getM acc i).getD ⟨0, 0⟩).damages,
        ((getM acc i).getD ⟨0, 0⟩).transmissions + sumVolume ts i⟩ := by
  induction ts generalizing acc with
  | nil => simp
  | cons t rest ih =>
    show getM (rest.foldl addTransmissionTotal (addTransmissionTotal acc t)) i = _
    rw [ih]
    by_cases h : (t.year : Int) = i
    · have hacc : getM (addTransmissionTotal acc t) i =
          some ⟨((getM acc i).getD ⟨0, 0⟩).damages,
            ((getM acc i).getD ⟨0, 0⟩).transmissions + t.transmissions⟩ := by
        unfold addTransmissionTotal
        rw [getM_upsert, if_pos h, h]
      have hfc : (t :: rest).filter (fun t => decide ((t.year : Int) = i)) =
          t :: rest.filter (fun t => decide ((t.year : Int) = i)) :=
        List.filter_cons_of_pos (by simpa using h)
      have hsum : sumVolume (t :: rest) i = t.transmissions + sumVolume rest i := by
        unfold sumVolume
        rw [hfc]
        simp
      rw [hfc, hacc, hsum]
      by_cases hrest : rest.filter (fun t => decide ((t.year : Int) = i)) = []
      · have hs0 : sumVolume rest i = 0 := by
          unfold sumVolume
          rw [hrest]
          simp
        rw [if_pos hrest, hs0]
        simp
      · rw [if_neg hrest]
        simp [add_assoc]
    · have hacc : getM (addTransmissionTotal acc t) i = getM acc i := by
        unfold addTransmissionTotal
        rw [getM_upsert, if_neg h]
      have hfc : (t :: rest).filter (fun t => decide ((t.year : Int) = i)) =
          rest.filter (fun t => decide ((t.year : Int) = i)) :=
        List.filter_cons_of_neg (by simpa using h)
      have hsum : sumVolume (t :: rest) i = sumVolume rest i := by
        unfold sumVolume
        rw [hfc]
      rw [hfc, hacc, hsum]

theorem getM_foldl_addDamageTotal (ds : List DamageRecord)
    (acc : List (Int × YearTotals)) (i : Int) :
    getM (ds.foldl addDamageTotal acc) i =
      if ds.filter (fun d => decide ((d.year : Int) = i)) = [] then getM acc i
      else some ⟨((getM acc i).getD ⟨0, 0⟩).damages + sumDamages ds i,
        ((getM acc i).getD ⟨0, 0⟩).transmissions⟩ := by
  induction ds generalizing acc with
  | nil => simp
  | cons d rest ih =>
    show getM (rest.foldl addDamageTotal (addDamageTotal acc d)) i = _
    rw [ih]
    by_cases h : (d.year : Int) = i
    · have hacc : getM (addDamageTotal acc d) i =
          some ⟨((getM acc i).getD ⟨0, 0⟩).damages + d.total_damages,
            ((getM acc i).getD ⟨0, 0⟩).transmissions⟩ := by
        unfold addDamageTotal
        rw [getM_upsert, if_pos h, h]
      have hfc : (d :: rest).filter (fun d => decide ((d.year : Int) = i)) =
          d :: rest.filter (fun d => decide ((d.year : Int) = i)) :=
        List.filter_cons_of_pos (by simpa using h)
      have hsum : sumDamages (d :: rest) i = d.total_damages + sumDamages rest i := by
        unfold sumDamages
        rw [hfc]
        simp
      rw [hfc, hacc, hsum]
      by_cases hrest : rest.filter (fun d => decide ((d.year : Int) = i)) = []
      · have hs0 : sumDamages rest i = 0 := by
          unfold sumDamages
          rw [hrest]
          simp
        rw [if_pos hrest, hs0]
        simp
      · rw [if_neg hrest]
        simp [add_assoc]
    · have hacc : getM (addDamageTotal acc d) i = getM acc i := by
        unfold addDamageTotal
        rw [getM_upsert, if_neg h]
      have hfc : (d :: rest).filter (fun d => decide ((d.year : Int) = i)) =
          rest.filter (fun d => decide ((d.year : Int) = i)) :=
        List.filter_cons_of_neg (by simpa using h)
      have hsum : sumDamages (d :: rest) i = sumDamages rest i := by
        unfold sumDamages
        rw [hfc]
      rw [hfc, hacc, hsum]

theorem getM_yearTotalsOf (ts : List TransmissionRecord)
    (ds : List DamageRecord) (i : Int) :
    getM (yearTotalsOf ts ds) i =
      if ts.filter (fun t => decide ((t.year : Int) = i)) = [] ∧
          ds.filter (fun d => decide ((d.year : Int) = i)) = [] then none
      else some ⟨sumDamages ds i, sumVolume ts i⟩ := by
  unfold yearTotalsOf
  rw [getM_foldl_addDamageTotal, getM_foldl_addTransmissionTotal]
  by_cases hts : ts.filter (fun t => decide ((t.year : Int) = i)) = []
  · have hs0 : sumVolume ts i = 0 := by
      unfold sumVolume
      rw [hts]
      simp
    by_cases hds : ds.filter (fun d => decide ((d.year : Int) = i)) = []
    · rw [if_pos hds, if_pos hts, if_pos ⟨hts, hds⟩]
      simp [getM]
    · rw [if_neg hds, if_pos hts, if_neg (by simp [hds])]
      simp [getM, hs0]
  · have hgt : getM ([] : List (Int × YearTotals)) i = none := rfl
    by_cases hds : ds.filter (fun d => decide ((d.year : Int) = i)) = []
    · have hd0 : sumDamages ds i = 0 := by
        unfold sumDamages
        rw [hds]
        simp
      rw [if_pos hds, if_neg hts, if_neg (by simp [hts])]
      rw [hgt]
      simp [hd0]
    · rw [if_neg hds, if_neg hts, if_neg (by simp [hts])]
      rw [hgt]
      simp

theorem keys_upsert {κ ν : Type} [DecidableEq κ] (l : List (κ × ν)) (k : κ)
    (v : ν) :
    (upsert l k v).map Prod.fst =
      if k ∈ l.map Prod.fst then l.map Prod.fst else l.map Prod.fst ++ [k] := by
  induction l with
  | nil => simp [upsert]
  | cons kv rest ih =>
    obtain ⟨k1, v1⟩ := kv
    by_cases h : k1 = k
    · subst h
      simp [upsert]
    · have h2 : ¬ k = k1 := fun hc => h hc.symm
      simp only [upsert, if_neg h, List.map_cons]
      rw [ih]
      by_cases hm : k ∈ rest.map Prod.fst
      · simp [hm, h2]
      · simp [hm, h2]

theorem nodup_keys_upsert {κ ν : Type} [DecidableEq κ] (l : List (κ × ν))
    (k : κ) (v : ν) (h : (l.map Prod.fst).Nodup) :
    ((upsert l k v).map Prod.fst).Nodup := by
  rw [keys_upsert]
  by_cases hm : k ∈ l.map Prod.fst
  · rwa [if_pos hm]
  · rw [if_neg hm]
    simp only [List.nodup_append, List.nodup_cons]
    exact ⟨h, by simp, by simpa using hm⟩

theorem nodup_keys_yearTotalsOf (ts : List TransmissionRecord)
    (ds : List DamageRecord) :
    ((yearTotalsOf ts ds).map Prod.fst).Nodup := by
  have h1 : ∀ (l : List TransmissionRecord) (acc : List (Int × YearTotals)),
      (acc.map Prod.fst).Nodup →
      ((l.foldl addTransmissionTotal acc).map Prod.fst).Nodup := by
    intro l
    induction l with
    | nil => intro acc h; exact h
    | cons t rest ih =>
      intro acc h
      exact ih _ (nodup_keys_upsert acc _ _ h)
  have h2 : ∀ (l : List DamageRecord) (acc : List (Int × YearTotals)),
      (acc.map Prod.fst).Nodup →
      ((l.foldl addDamageTotal acc).map Prod.fst).Nodup := by
    intro l
    induction l with
    | nil => intro acc h; exact h
    | cons d rest ih =>
      intro acc h
      exact ih _ (nodup_keys_upsert acc _ _ h)
  exact h2 ds _ (h1 ts [] (by simp))

theorem getM_eq_none_iff {κ ν : Type} [DecidableEq κ] (l : List (κ × ν))
    (k : κ) : getM l k = none ↔ k ∉ l.map Prod.fst := by
  induction l with
  | nil => simp [getM]
  | cons kv rest ih =>
    obtain ⟨k1, v1⟩ := kv
    by_cases h : k1 = k
    · subst h
      simp [getM]
    · have h2 : ¬ k = k1 := fun hc => h hc.symm
      simp [getM, h, h2, ih]

theorem getM_foldl_addNationalRate_skip (totals : List (Int × YearTotals))
    (i : Int) (hni : i ∉ totals.map Prod.fst) (acc : List (Int × ℚ)) :
    getM (totals.foldl addNationalRate acc) i = getM acc i := by
  induction totals generalizing acc with
  | nil => rfl
  | cons yt rest ih =>
    have hy : yt.1 ≠ i := by
      intro hc
      exact hni (by simp [hc.symm])
    have hni2 : i ∉ rest.map Prod.fst := fun hc => hni (by simp [hc])
    show getM (rest.foldl addNationalRate (addNationalRate acc yt)) i = _
    rw [ih hni2]
    unfold addNationalRate
    cases calculateDamageRate yt.2.damages yt.2.transmissions with
    | none => rfl
    | some rate => rw [getM_upsert, if_neg hy]

theorem getM_foldl_addNationalRate (totals : List (Int × YearTotals))
    (i : Int) (hnd : (totals.map Prod.fst).Nodup) (acc : List (Int × ℚ))
    (hacc : getM acc i = none) :
    getM (totals.foldl addNationalRate acc) i =
      (getM totals i).bind
        (fun yt => calculateDamageRate yt.damages yt.transmissions) := by
  induction totals generalizing acc with
  | nil => simpa [getM] using hacc
  | cons yt rest ih =>
    obtain ⟨y, v⟩ := yt
    rcases hnd with _ | ⟨hy, hrest⟩
    by_cases h : y = i
    · subst h
      have hni : y ∉ rest.map Prod.fst := by
        intro hc
        exact absurd rfl (hy y hc)
      show getM (rest.foldl addNationalRate (addNationalRate acc (y, v))) y = _
      rw [getM_foldl_addNationalRate_skip rest y hni]
      have hget : getM ((y, v) :: rest) y = some v := by simp [getM]
      rw [hget]
      unfold addNationalRate
      cases h2 : calculateDamageRate v.damages v.transmissions with
      | none => simp [h2, hacc]
      | some rate =>
        rw [getM_upsert, if_pos rfl]
        simp [h2]
    · have h2 : ¬ y = i := h
      show getM (rest.foldl addNationalRate (addNationalRate acc (y, v))) i = _
      have hacc2 : getM (addNationalRate acc (y, v)) i = none := by
        unfold addNationalRate
        cases calculateDamageRate v.damages v.transmissions with
        | none => exact hacc
        | some rate =>
          rw [getM_upsert, if_neg h2]
          exact hacc
      rw [ih hrest _ hacc2]
      simp [getM, h2]

theorem getM_calculateNationalAverages (ts : List TransmissionRecord)
    (ds : List DamageRecord) (i : Int) :
    getM (calculateNationalAverages ts ds) i =
      if ts.filter (fun t => decide ((t.year : Int) = i)) = [] ∧
          ds.filter (fun d => decide ((d.year : Int) = i)) = [] then none
      else calculateDamageRate (sumDamages ds i) (sumVolume ts i) := by
  unfold calculateNationalAverages
  rw [getM_foldl_addNationalRate _ i (nodup_keys_yearTotalsOf ts ds) [] rfl,
    getM_yearTotalsOf]
  by_cases h : ts.filter (fun t => decide ((t.year : Int) = i)) = [] ∧
      ds.filter (fun d => decide ((d.year : Int) = i)) = []
  · rw [if_pos h, if_pos h]
    rfl
  · rw [if_neg h, if_neg h]
    rfl

theorem nodup_insertKey {κ : Type} [DecidableEq κ] (ks : List κ) (k : κ)
    (h : ks.Nodup) : (insertKey ks k).Nodup := by
  by_cases hm : k ∈ ks
  · rwa [insertKey, if_pos hm]
  · rw [insertKey, if_neg hm]
    simp only [List.nodup_append, List.nodup_cons]
    exact ⟨h, by simp, by simpa using hm⟩

/-- C2: with zero prior-year region history, the estimator returns exactly
the national-baseline lookup at year `Y - 1` — present iff that entry is
present, and in particular never the entry of year `Y` or `Y - 2`, whose
lookups are not consulted. -/
theorem expectedRate_fallback_prev_year_national
    (metricsMap : List (String × List StateYearMetrics))
    (nationalAvgRate : List (Int × ℚ)) (s : String) (y : Nat)
    (hzero : ∀ m ∈ stateHistoryOf metricsMap s, m.year < y → m.damage_rate = none) :
    calculateExpectedDamageRate s y metricsMap nationalAvgRate =
      getM nationalAvgRate ((y : Int) - 1) := by
  have hP : priorMetricsOf metricsMap s y = [] := by
    unfold priorMetricsOf
    rw [List.filter_eq_nil]
    intro m hm
    intro hcond
    simp only [Bool.and_eq_true, decide_eq_true_eq, Option.isSome_iff_exists] at hcond
    obtain ⟨hy, r, hr⟩ := hcond
    rw [hzero m hm hy] at hr
    exact Option.noConfusion hr
  unfold calculateExpectedDamageRate
  rw [hP]
  simp [sortJs]

/-- C2 witness: a concrete region with no prior history at year 5 receives
the national entry of year 4, not the year-5 or year-3 entry. -/
theorem expectedRate_fallback_prev_year_national_witness :
    (∀ m ∈ stateHistoryOf [] "AL", m.year < 5 → m.damage_rate = none) ∧
    calculateExpectedDamageRate "AL" 5 []
        [((3 : Int), (11 : ℚ)), ((4 : Int), (22 : ℚ)), ((5 : Int), (33 : ℚ))] =
      some 22 := by
  constructor
  · intro m hm
    simp [stateHistoryOf, getM] at hm
  · rw [expectedRate_fallback_prev_year_national []
      [((3 : Int), (11 : ℚ)), ((4 : Int), (22 : ℚ)), ((5 : Int), (33 : ℚ))] "AL" 5
      (by intro m hm; simp [stateHistoryOf, getM] at hm)]
    simp [getM]

/-- C7: the National Baseline maps a year to the nationwide rate
`(sum of all event counts) / (sum of all volumes) * 10000`, both sides
summed over every record of that year independently; a year missing from
both inputs, or whose total volume is not positive, has no entry. -/
theorem nationalBaseline_spec (ts : List TransmissionRecord)
    (ds : List DamageRecord) (i : Int) :
    getM (calculateNationalAverages ts ds) i =
      if ((∃ t ∈ ts, (t.year : Int) = i) ∨ (∃ d ∈ ds, (d.year : Int) = i)) ∧
          0 < sumVolume ts i
      then some (sumDamages ds i / sumVolume ts i * 10000)
      else none := by
  rw [getM_calculateNationalAverages]
  by_cases hpres : (∃ t ∈ ts, (t.year : Int) = i) ∨ (∃ d ∈ ds, (d.year : Int) = i)
  · have hne : ¬ (ts.filter (fun t => decide ((t.year : Int) = i)) = [] ∧
        ds.filter (fun d => decide ((d.year : Int) = i)) = []) := by
      rintro ⟨h1, h2⟩
      rcases hpres with ⟨t, ht, hty⟩ | ⟨d, hd, hdy⟩
      · have : t ∈ ts.filter (fun t => decide ((t.year : Int) = i)) :=
          List.mem_filter.2 ⟨ht, by simpa using hty⟩
        rw [h1] at this
        exact absurd this (List.not_mem_nil t)
      · have : d ∈ ds.filter (fun d => decide ((d.year : Int) = i)) :=
          List.mem_filter.2 ⟨hd, by simpa using hdy⟩
        rw [h2] at this
        exact absurd this (List.not_mem_nil d)
    rw [if_neg hne]
    by_cases hT : 0 < sumVolume ts i
    · rw [if_pos ⟨hpres, hT⟩]
      unfold calculateDamageRate
      rw [if_neg (not_le_of_lt hT)]
    · have hcond : ¬ (((∃ t ∈ ts, (t.year : Int) = i) ∨
          (∃ d ∈ ds, (d.year : Int) = i)) ∧ 0 < sumVolume ts i) :=
        fun hc => hT hc.2
      rw [if_neg hcond]
      unfold calculateDamageRate
      rw [if_pos (le_of_not_lt hT)]
  · have h1 : ts.filter (fun t => decide ((t.year : Int) = i)) = [] := by
      rw [List.filter_eq_nil]
      intro t ht hc
      exact hpres (Or.inl ⟨t, ht, by simpa using hc⟩)
    have h2 : ds.filter (fun d => decide ((d.year : Int) = i)) = [] := by
      rw [List.filter_eq_nil]
      intro d hd hc
      exact hpres (Or.inr ⟨d, hd, by simpa using hc⟩)
    rw [if_pos ⟨h1, h2⟩, if_neg (fun hc => hpres hc.1)]

theorem mem_collectYears (ms : List StateYearMetrics) (acc : List Nat)
    (x : Nat) :
    x ∈ ms.foldl
        (fun acc m => if m.expected_damage_rate.isSome then insertKey acc m.year
          else acc) acc ↔
      x ∈ acc ∨ ∃ m ∈ ms, m.year = x ∧ m.expected_damage_rate.isSome = true := by
  induction ms generalizing acc with
  | nil => simp
  | cons m rest ih =>
    show x ∈ rest.foldl _
        (if m.expected_damage_rate.isSome then insertKey acc m.year else acc) ↔ _
    rw [ih]
    by_cases h : m.expected_damage_rate.isSome
    · rw [if_pos h, mem_insertKey]
      constructor
      · rintro (⟨hx | rfl⟩ | ⟨m2, hm2, hy, hs⟩)
        · exact Or.inl hx
        · exact Or.inr ⟨m, List.mem_cons_self m rest, rfl, h⟩
        · exact Or.inr ⟨m2, List.mem_cons_of_mem m hm2, hy, hs⟩
      · rintro (hx | ⟨m2, hm2, hy, hs⟩)
        · exact Or.inl (Or.inl hx)
        · rcases List.mem_cons.1 hm2 with rfl | hm3
          · exact Or.inl (Or.inr hy.symm)
          · exact Or.inr ⟨m2, hm3, hy, hs⟩
    · rw [if_neg h]
      constructor
      · rintro (hx | ⟨m2, hm2, hy, hs⟩)
        · exact Or.inl hx
        · exact Or.inr ⟨m2, List.mem_cons_of_mem m hm2, hy, hs⟩
      · rintro (hx | ⟨m2, hm2, hy, hs⟩)
        · exact Or.inl hx
        · rcases List.mem_cons.1 hm2 with rfl | hm3
          · exact absurd hs h
          · exact Or.inr ⟨m2, hm3, hy, hs⟩

theorem nodup_collectYears (ms : List StateYearMetrics) (acc : List Nat)
    (hacc : acc.Nodup) :
    (ms.foldl
      (fun acc m => if m.expected_damage_rate.isSome then insertKey acc m.year
        else acc) acc).Nodup := by
  induction ms generalizing acc with
  | nil => exact hacc
  | cons m rest ih =>
    show (rest.foldl _
        (if m.expected_damage_rate.isSome then insertKey acc m.year else acc)).Nodup
    by_cases h : m.expected_damage_rate.isSome
    · rw [if_pos h]
      exact ih _ (nodup_insertKey acc m.year hacc)
    · rw [if_neg h]
      exact ih _ hacc

/-- C5 amended: `getAvailableYears` returns exactly the years having at
least one metric with a non-null expected rate, with no duplicates, sorted
ascending in the lexicographic order of the decimal string forms of the
years (the default JS sort comparator) — which coincides with numeric
ascending order only when all years have the same number of digits. -/
theorem availableYears_spec (ms : List StateYearMetrics) :
    (∀ x, x ∈ getAvailableYears ms ↔
      ∃ m ∈ ms, m.year = x ∧ m.expected_damage_rate.isSome = true) ∧
    (getAvailableYears ms).Nodup ∧
    List.Pairwise (fun a b => numericStringLe a b = true) (getAvailableYears ms) := by
  refine ⟨?_, ?_, ?_⟩
  · intro x
    unfold getAvailableYears
    rw [(perm_sortJs numericStringLe _).mem_iff, mem_collectYears]
    simp
  · unfold getAvailableYears
    rw [(perm_sortJs numericStringLe _).nodup_iff]
    exact nodup_collectYears ms [] (by simp)
  · exact pairwise_sortJs numericStringLe numericStringLe_total
      numericStringLe_trans _

/-- The metrics refuting the numeric-ascending reading of the
available-years contract: two metrics with computed expected rates in
years 9 and 10. -/
def c5metrics : List StateYearMetrics :=
  [{ state := "AA", year := 9, transmissions := 1, actual_damages := 0,
     damage_rate := none, expected_damage_rate := some 1,
     expected_damages := none, residual := none, residual_pct := none },
   { state := "AA", year := 10, transmissions := 1, actual_damages := 0,
     damage_rate := none, expected_damage_rate := some 1,
     expected_damages := none, residual := none, residual_pct := none }]

/-- C5 counterexample: with expected rates present in years 9 and 10, the
default (string-comparing) sort returns `[10, 9]`, which is not an
ascending sequence of years. -/
theorem availableYears_not_numeric_ascending :
    getAvailableYears c5metrics = [10, 9] ∧
    ¬ List.Pairwise (fun a b : Nat => a ≤ b) (getAvailableYears c5metrics) := by
  constructor
  · decide
  · decide

/-- C1: with at least one prior-year metric carrying a non-null rate, the
estimator returns the arithmetic mean of the rates of the at most 3 most
recent such prior years: there is a year-descending reordering of the
prior set whose first (at most) 3 entries are averaged; a 1- or 2-entry
history is averaged as-is; and appending a further prior year at least as
old as every existing prior year, when 3 priors already exist, does not
change the result. -/
theorem expectedRate_mean_of_recent_priors
    (metricsMap : List (String × List StateYearMetrics))
    (nationalAvgRate : List (Int × ℚ)) (s : String) (y : Nat)
    (hne : priorMetricsOf metricsMap s y ≠ []) :
    (∃ l, List.Perm (priorMetricsOf metricsMap s y) l ∧
       List.Pairwise (fun a b => b.year ≤ a.year) l ∧
       calculateExpectedDamageRate s y metricsMap nationalAvgRate =
         some (((l.take 3).map (fun m => m.damage_rate.getD 0)).sum /
           ((l.take 3).length : ℚ))) ∧
    ((priorMetricsOf metricsMap s y).length ≤ 3 →
       calculateExpectedDamageRate s y metricsMap nationalAvgRate =
         some (((priorMetricsOf metricsMap s y).map
             (fun m => m.damage_rate.getD 0)).sum /
           ((priorMetricsOf metricsMap s y).length : ℚ))) ∧
    (∀ (metricsMap2 : List (String × List StateYearMetrics))
       (m : StateYearMetrics),
       stateHistoryOf metricsMap2 s = stateHistoryOf metricsMap s ++ [m] →
       m.year < y → m.damage_rate.isSome = true →
       (∀ p ∈ priorMetricsOf metricsMap s y, m.year ≤ p.year) →
       3 ≤ (priorMetricsOf metricsMap s y).length →
       calculateExpectedDamageRate s y metricsMap2 nationalAvgRate =
         calculateExpectedDamageRate s y metricsMap nationalAvgRate) := by
  have hperm := perm_sortJs descByYear (priorMetricsOf metricsMap s y)
  have hlen : (sortJs descByYear (priorMetricsOf metricsMap s y)).length =
      (priorMetricsOf metricsMap s y).length := hperm.length_eq
  have hpos : 0 < (priorMetricsOf metricsMap s y).length :=
    List.length_pos.2 hne
  have hvalue : calculateExpectedDamageRate s y metricsMap nationalAvgRate =
      some ((((sortJs descByYear (priorMetricsOf metricsMap s y)).take 3).map
          (fun m => m.damage_rate.getD 0)).sum /
        ((((sortJs descByYear (priorMetricsOf metricsMap s y)).take 3).map
          (fun m => m.damage_rate.getD 0)).length : ℚ)) := by
    unfold calculateExpectedDamageRate
    have hlpos : 0 < (((sortJs descByYear (priorMetricsOf metricsMap s y)).take 3).map
        (fun m => m.damage_rate.getD 0)).length := by
      rw [List.length_map, List.length_take, hlen]
      exact lt_min (by norm_num) hpos
    rw [if_pos hlpos, ← List.sum_eq_foldl]
  refine ⟨?_, ?_, ?_⟩
  · refine ⟨sortJs descByYear (priorMetricsOf metricsMap s y), hperm.symm, ?_, ?_⟩
    · have hpw := pairwise_sortJs descByYear descByYear_total descByYear_trans
        (priorMetricsOf metricsMap s y)
      exact hpw.imp (fun hab => by simpa [descByYear] using hab)
    · rw [hvalue, List.length_map]
  · intro h3
    have htake : (sortJs descByYear (priorMetricsOf metricsMap s y)).take 3 =
        sortJs descByYear (priorMetricsOf metricsMap s y) :=
      List.take_of_length_le (by rw [hlen]; exact h3)
    rw [hvalue, htake]
    have hsum : ((sortJs descByYear (priorMetricsOf metricsMap s y)).map
        (fun m => m.damage_rate.getD 0)).sum =
        ((priorMetricsOf metricsMap s y).map
          (fun m => m.damage_rate.getD 0)).sum :=
      (hperm.map (fun m => m.damage_rate.getD 0)).sum_eq
    rw [hsum, List.length_map, hlen]
  · intro metricsMap2 m hhist hy hsome hold h3
    have hP2 : priorMetricsOf metricsMap2 s y =
        priorMetricsOf metricsMap s y ++ [m] := by
      unfold priorMetricsOf
      rw [hhist, List.filter_append]
      have hm : ([m].filter
          (fun m => decide (m.year < y) && m.damage_rate.isSome)) = [m] := by
        simp [hy, hsome]
      rw [hm]
    have hsort : sortJs descByYear (priorMetricsOf metricsMap2 s y) =
        sortJs descByYear (priorMetricsOf metricsMap s y) ++ [m] := by
      rw [hP2]
      exact sortJs_append_last descByYear m _
        (fun x hx => by simpa [descByYear] using hold x hx)
    have htake : (sortJs descByYear (priorMetricsOf metricsMap2 s y)).take 3 =
        (sortJs descByYear (priorMetricsOf metricsMap s y)).take 3 := by
      rw [hsort]
      exact List.take_append_of_le_length (by rw [hlen]; exact h3)
    unfold calculateExpectedDamageRate
    rw [htake]

/-- Concrete 3-year history for the estimator witness: rates 75, 80, 70. -/
def c1mm : List (String × List StateYearMetrics) :=
  [("AL",
    [{ state := "AL", year := 2018, transmissions := 100000, actual_damages := 750,
       damage_rate := some 75, expected_damage_rate := none,
       expected_damages := none, residual := none, residual_pct := none },
     { state := "AL", year := 2019, transmissions := 100000, actual_damages := 800,
       damage_rate := some 80, expected_damage_rate := none,
       expected_damages := none, residual := none, residual_pct := none },
     { state := "AL", year := 2020, transmissions := 100000, actual_damages := 700,
       damage_rate := some 70, expected_damage_rate := none,
       expected_damages := none, residual := none, residual_pct := none }])]

/-- C1 witness: the 75/80/70 three-year history yields expected rate 75. -/
theorem expectedRate_mean_of_recent_priors_witness :
    priorMetricsOf c1mm "AL" 2021 ≠ [] ∧
    (priorMetricsOf c1mm "AL" 2021).length ≤ 3 ∧
    calculateExpectedDamageRate "AL" 2021 c1mm [] = some 75 := by
  refine ⟨by decide, by decide, ?_⟩
  have h := (expectedRate_mean_of_recent_priors c1mm [] "AL" 2021
    (by decide)).2.1 (by decide)
  rw [h]
  norm_num [priorMetricsOf, stateHistoryOf, getM, c1mm]

theorem applyExpected_gate (mm : List (String × List StateYearMetrics))
    (na : List (Int × ℚ)) (m0 : StateYearMetrics) :
    (∃ er, calculateExpectedDamageRate m0.state m0.year mm na = some er ∧
       0 < m0.transmissions ∧ 0 < m0.transmissions * er / 10000 ∧
       MEANINGFUL_RESIDUAL_THRESHOLD ≤
         |(m0.actual_damages - m0.transmissions * er / 10000) /
           (m0.transmissions * er / 10000)| ∧
       (applyExpected mm na m0).expected_damages =
         some (m0.transmissions * er / 10000) ∧
       (applyExpected mm na m0).residual =
         some (m0.actual_damages - m0.transmissions * er / 10000) ∧
       (applyExpected mm na m0).residual_pct =
         some ((m0.actual_damages - m0.transmissions * er / 10000) /
           (m0.transmissions * er / 10000))) ∨
    ((applyExpected mm na m0).expected_damages = m0.expected_damages ∧
     (applyExpected mm na m0).residual = m0.residual ∧
     (applyExpected mm na m0).residual_pct = m0.residual_pct ∧
     ¬ ∃ er, calculateExpectedDamageRate m0.state m0.year mm na = some er ∧
        0 < m0.transmissions ∧ 0 < m0.transmissions * er / 10000 ∧
        MEANINGFUL_RESIDUAL_THRESHOLD ≤
          |(m0.actual_damages - m0.transmissions * er / 10000) /
            (m0.transmissions * er / 10000)|) := by
  cases h : calculateExpectedDamageRate m0.state m0.year mm na with
  | none =>
    right
    refine ⟨?_, ?_, ?_, ?_⟩
    · unfold applyExpected
      rw [h]
    · unfold applyExpected
      rw [h]
    · unfold applyExpected
      rw [h]
    · rintro ⟨er, her, _⟩
      exact Option.noConfusion her
  | some er =>
    by_cases ht : 0 < m0.transmissions
    · by_cases hraw : 0 < m0.transmissions * er / 10000
      · by_cases hth : MEANINGFUL_RESIDUAL_THRESHOLD ≤
            |(m0.actual_damages - m0.transmissions * er / 10000) /
              (m0.transmissions * er / 10000)|
        · left
          refine ⟨er, rfl, ht, hraw, hth, ?_, ?_, ?_⟩ <;>
            · unfold applyExpected
              rw [h]
              dsimp only
              rw [if_pos ht, if_pos hraw, if_pos hth]
        · right
          have hval : applyExpected mm na m0 =
              { m0 with expected_damage_rate := some er } := by
            unfold applyExpected
            rw [h]
            dsimp only
            rw [if_pos ht, if_pos hraw, if_neg hth]
          refine ⟨by rw [hval], by rw [hval], by rw [hval], ?_⟩
          rintro ⟨er2, her2, _, _, hth2⟩
          rw [← Option.some_inj.1 her2] at hth2
          exact hth hth2
      · right
        have hval : applyExpected mm na m0 =
            { m0 with expected_damage_rate := some er } := by
          unfold applyExpected
          rw [h]
          dsimp only
          rw [if_pos ht, if_neg hraw]
        refine ⟨by rw [hval], by rw [hval], by rw [hval], ?_⟩
        rintro ⟨er2, her2, _, hraw2, _⟩
        rw [← Option.some_inj.1 her2] at hraw2
        exact hraw hraw2
    · right
      have hval : applyExpected mm na m0 =
          { m0 with expected_damage_rate := some er } := by
        unfold applyExpected
        rw [h]
        dsimp only
        rw [if_neg ht]
      refine ⟨by rw [hval], by rw [hval], by rw [hval], ?_⟩
      rintro ⟨er2, her2, ht2, _⟩
      exact ht ht2

/-- C3: in every pipeline output metric the fields `expected_damages`,
`residual`, `residual_pct` are all non-null or all null, and they are
non-null exactly when the expected rate is non-null, the volume is
positive, the raw expected event count is positive, and the absolute raw
residual percentage meets the (inclusive) materiality threshold; the gate
never clears `expected_damage_rate` itself, so a suppressed metric keeps
its non-null expected rate (visible in the right side of the
characterization, which constrains only the three gated fields). -/
theorem residual_fields_atomic (ts : List TransmissionRecord)
    (ds : List DamageRecord) (m : StateYearMetrics)
    (hm : m ∈ transformData ts ds) :
    ((m.expected_damages = none ∧ m.residual = none ∧ m.residual_pct = none) ∨
     (m.expected_damages ≠ none ∧ m.residual ≠ none ∧ m.residual_pct ≠ none)) ∧
    (m.expected_damages ≠ none ↔
      ∃ er, m.expected_damage_rate = some er ∧ 0 < m.transmissions ∧
        0 < m.transmissions * er / 10000 ∧
        MEANINGFUL_RESIDUAL_THRESHOLD ≤
          |(m.actual_damages - m.transmissions * er / 10000) /
            (m.transmissions * er / 10000)|) := by
  obtain ⟨k, hk, rfl⟩ := (mem_transformData ts ds m).1 hm
  set mm := metricsMapOf ts ds
  set na := calculateNationalAverages ts ds
  set m0 := mkMetric (transmissionMapOf ts) (damageMapOf ds) k with hm0
  have hed : m0.expected_damages = none := rfl
  have hr : m0.residual = none := rfl
  have hrp : m0.residual_pct = none := rfl
  have htr := applyExpected_transmissions mm na m0
  have had := applyExpected_actual_damages mm na m0
  have her := applyExpected_expected_rate mm na m0
  rcases applyExpected_gate mm na m0 with
    ⟨er, hcalc, ht, hraw, hth, hset1, hset2, hset3⟩ | ⟨h1, h2, h3, hnot⟩
  · constructor
    · right
      rw [hset1, hset2, hset3]
      exact ⟨Option.noConfusion, Option.noConfusion, Option.noConfusion⟩
    · constructor
      · intro _
        exact ⟨er, by rw [her, hcalc], by rw [htr]; exact ht,
          by rw [htr]; exact hraw, by rw [htr, had]; exact hth⟩
      · intro _
        rw [hset1]
        exact Option.noConfusion
  · constructor
    · left
      rw [h1, h2, h3, hed, hr, hrp]
      exact ⟨rfl, rfl, rfl⟩
    · constructor
      · intro hcon
        rw [h1, hed] at hcon
        exact absurd rfl hcon
      · rintro ⟨er, her2, ht2, hraw2, hth2⟩
        exfalso
        apply hnot
        refine ⟨er, ?_, ?_, ?_, ?_⟩
        · rw [← her]
          exact her2
        · rw [← htr]
          exact ht2
        · rw [← htr]
          exact hraw2
        · rw [← htr, ← had]
          exact hth2

theorem key_applyExpected_mkMetric
    (mm : List (String × List StateYearMetrics)) (na : List (Int × ℚ))
    (tM : List ((String × Nat) × TransmissionRecord))
    (dM : List ((String × Nat) × DamageRecord)) (k : String × Nat) :
    ((applyExpected mm na (mkMetric tM dM k)).state,
      (applyExpected mm na (mkMetric tM dM k)).year) = k := by
  rw [applyExpected_state, applyExpected_year]
  rfl

theorem pairwise_ne_key_transformData (ts : List TransmissionRecord)
    (ds : List DamageRecord) :
    List.Pairwise (fun a b : StateYearMetrics =>
      (a.state, a.year) ≠ (b.state, b.year)) (transformData ts ds) := by
  have hsymm : ∀ {a b : StateYearMetrics},
      ((a.state, a.year) ≠ (b.state, b.year)) →
      ((b.state, b.year) ≠ (a.state, a.year)) := fun h => h ∘ Eq.symm
  rw [List.Perm.pairwise_iff hsymm (perm_transformData ts ds)]
  unfold allMetricsOf
  rw [List.map_map, List.pairwise_map]
  refine (nodup_keptKeysOf ts ds).imp ?_
  intro a b hab hc
  apply hab
  simp only [Function.comp] at hc
  have ha := key_applyExpected_mkMetric (metricsMapOf ts ds)
    (calculateNationalAverages ts ds) (transmissionMapOf ts) (damageMapOf ds) a
  have hb := key_applyExpected_mkMetric (metricsMapOf ts ds)
    (calculateNationalAverages ts ds) (transmissionMapOf ts) (damageMapOf ds) b
  rw [← ha, ← hb]
  exact hc

/-- C8: the pipeline output is sorted by region code lexicographically
ascending and, within a region, by strictly ascending year; consequently
no metric of region "CA" ever precedes a metric of region "AL". -/
theorem transform_output_sorted (ts : List TransmissionRecord)
    (ds : List DamageRecord) :
    List.Pairwise (fun a b : StateYearMetrics =>
      strLt a.state b.state = true ∨ (a.state = b.state ∧ a.year < b.year))
      (transformData ts ds) ∧
    (∀ m1 m2 : StateYearMetrics,
      List.Sublist [m1, m2] (transformData ts ds) →
      m1.state = "CA" → m2.state ≠ "AL") := by
  have hle : List.Pairwise (fun a b => finalLe a b = true) (transformData ts ds) := by
    show List.Pairwise _ (sortJs finalLe _)
    exact pairwise_sortJs finalLe finalLe_total finalLe_trans _
  have hne := pairwise_ne_key_transformData ts ds
  have hmain : List.Pairwise (fun a b : StateYearMetrics =>
      strLt a.state b.state = true ∨ (a.state = b.state ∧ a.year < b.year))
      (transformData ts ds) := by
    refine (hle.and hne).imp ?_
    rintro a b ⟨h1, h2⟩
    unfold finalLe at h1
    by_cases hs : a.state = b.state
    · rw [if_pos hs] at h1
      right
      refine ⟨hs, ?_⟩
      have hy : a.year ≤ b.year := by simpa using h1
      rcases Nat.lt_or_ge a.year b.year with hlt | hge
      · exact hlt
      · exfalso
        apply h2
        rw [hs, Nat.le_antisymm hy hge]
    · rw [if_neg hs] at h1
      exact Or.inl h1
  refine ⟨hmain, ?_⟩
  intro m1 m2 hsub h1 h2
  have hp : List.Pairwise (fun a b : StateYearMetrics =>
      strLt a.state b.state = true ∨ (a.state = b.state ∧ a.year < b.year))
      [m1, m2] := hmain.sublist hsub
  rcases hp with _ | ⟨hrel, _⟩
  have := hrel m2 (List.mem_cons_self m2 [])
  rw [h1, h2] at this
  rcases this with hlt | ⟨heq, _⟩
  · exact absurd hlt (by decide)
  · exact absurd heq (by decide)

theorem length_filter_eq_key {κ : Type} [DecidableEq κ] (l : List κ) (k : κ)
    (h : l.Nodup) :
    (l.filter (fun x => decide (x = k))).length = if k ∈ l then 1 else 0 := by
  induction l with
  | nil => simp
  | cons x rest ih =>
    rcases h with _ | ⟨hx, hrest⟩
    by_cases hxk : x = k
    · subst hxk
      have hnm : x ∉ rest := fun hc => absurd rfl (hx x hc)
      have hf : rest.filter (fun z => decide (z = x)) = [] := by
        rw [List.filter_eq_nil]
        intro z hz hc
        rw [decide_eq_true_eq] at hc
        exact hnm (hc ▸ hz)
      simp [hf]
    · have h1 : (x :: rest).filter (fun z => decide (z = k)) =
          rest.filter (fun z => decide (z = k)) :=
        List.filter_cons_of_neg (by simpa using hxk)
      rw [h1, ih hrest]
      have h2 : (k ∈ x :: rest) ↔ (k ∈ rest) := by
        constructor
        · intro hc
          rcases List.mem_cons.1 hc with hc2 | hc2
          · exact absurd hc2.symm hxk
          · exact hc2
        · exact List.mem_cons_of_mem x
      by_cases hm : k ∈ rest
      · rw [if_pos hm, if_pos (h2.2 hm)]
      · rw [if_neg hm, if_neg (fun hc => hm (h2.1 hc))]

/-- C4: the transform emits exactly one metric per state-year key of the
union of both inputs whose resolved volume is positive (none for any other
key, even one carried only by a damage record), and every emitted metric
carries the non-null actual rate `actual_damages / transmissions * 10000`. -/
theorem transform_join_complete (ts : List TransmissionRecord)
    (ds : List DamageRecord) :
    (∀ (s : String) (y : Nat),
      ((transformData ts ds).filter
        (fun m => decide (m.state = s ∧ m.year = y))).length =
      if (s, y) ∈ ts.map keyOfT ++ ds.map keyOfD ∧ 0 < resolveVolume ts s y
      then 1 else 0) ∧
    (∀ m ∈ transformData ts ds,
      m.damage_rate = some (m.actual_damages / m.transmissions * 10000)) := by
  constructor
  · intro s y
    have hperm := (perm_transformData ts ds).filter
      (fun m => decide (m.state = s ∧ m.year = y))
    rw [hperm.length_eq]
    unfold allMetricsOf
    rw [List.map_map, List.filter_map, List.length_map]
    have hpred : ((fun m : StateYearMetrics => decide (m.state = s ∧ m.year = y)) ∘
        (applyExpected (metricsMapOf ts ds) (calculateNationalAverages ts ds) ∘
          mkMetric (transmissionMapOf ts) (damageMapOf ds))) =
        fun k : String × Nat => decide (k = (s, y)) := by
      funext k
      have hkey := key_applyExpected_mkMetric (metricsMapOf ts ds)
        (calculateNationalAverages ts ds) (transmissionMapOf ts)
        (damageMapOf ds) k
      have h1 : (applyExpected (metricsMapOf ts ds)
          (calculateNationalAverages ts ds)
          (mkMetric (transmissionMapOf ts) (damageMapOf ds) k)).state = k.1 :=
        congrArg Prod.fst hkey
      have h2 : (applyExpected (metricsMapOf ts ds)
          (calculateNationalAverages ts ds)
          (mkMetric (transmissionMapOf ts) (damageMapOf ds) k)).year = k.2 :=
        congrArg Prod.snd hkey
      simp [Function.comp, h1, h2, Prod.ext_iff]
    rw [hpred, length_filter_eq_key _ _ (nodup_keptKeysOf ts ds)]
    have hiff : (s, y) ∈ keptKeysOf ts ds ↔
        (s, y) ∈ ts.map keyOfT ++ ds.map keyOfD ∧ 0 < resolveVolume ts s y :=
      mem_keptKeysOf ts ds (s, y)
    by_cases hc : (s, y) ∈ keptKeysOf ts ds
    · rw [if_pos hc, if_pos (hiff.1 hc)]
    · rw [if_neg hc, if_neg (fun h => hc (hiff.2 h))]
  · intro m hm
    obtain ⟨k, hk, rfl⟩ := (mem_transformData ts ds m).1 hm
    have hvol : 0 < resolvedTransmissions (transmissionMapOf ts) k := by
      have h1 := ((mem_keptKeysOf ts ds k).1 hk).2
      have h2 : resolvedTransmissions (transmissionMapOf ts) k =
          resolveVolume ts k.1 k.2 := by
        have : (k.1, k.2) = k := rfl
        rw [← this]
        exact resolvedTransmissions_eq ts k.1 k.2
      rw [h2]
      exact h1
    rw [applyExpected_damage_rate, applyExpected_actual_damages,
      applyExpected_transmissions]
    show calculateDamageRate (resolvedDamages (damageMapOf ds) k)
        (resolvedTransmissions (transmissionMapOf ts) k) = _
    unfold calculateDamageRate
    rw [if_neg (not_le_of_lt hvol)]
    rfl

/-- Concrete input for witnesses: region AL, years 1 and 2. -/
def exTs : List TransmissionRecord := [⟨"AL", 1, 100⟩, ⟨"AL", 2, 100⟩]

/-- Concrete damage input for witnesses: one record, year 1. -/
def exDs : List DamageRecord := [⟨"AL", 1, 30⟩]

/-- First output metric of the witness input (year 1: no expected rate). -/
def exM1 : StateYearMetrics :=
  { state := "AL", year := 1, transmissions := 100, actual_damages := 30,
    damage_rate := some 3000, expected_damage_rate := none,
    expected_damages := none, residual := none, residual_pct := none }

/-- Second output metric of the witness input (year 2: expected rate 3000,
residual fields populated by the materiality gate). -/
def exM2 : StateYearMetrics :=
  { state := "AL", year := 2, transmissions := 100, actual_damages := 0,
    damage_rate := some 0, expected_damage_rate := some 3000,
    expected_damages := some 30, residual := some (-30),
    residual_pct := some (-1) }

theorem ex_eval : transformData exTs exDs = [exM1, exM2] := by
  norm_num [transformData, allMetricsOf, keptKeysOf, allKeysOf, dedupKeys,
    insertKey, keyOfT, keyOfD, transmissionMapOf, damageMapOf, upsert, getM,
    resolvedTransmissions, resolvedDamages, mkMetric, metricsMapOf,
    groupByState, pushGroup, mapValues, calculateNationalAverages,
    yearTotalsOf, addTransmissionTotal, addDamageTotal, addNationalRate,
    calculateDamageRate, applyExpected, calculateExpectedDamageRate,
    priorMetricsOf, stateHistoryOf, sortJs, insertSorted, descByYear,
    ascByYear, finalLe, strLt, listCharLt, MEANINGFUL_RESIDUAL_THRESHOLD,
    exTs, exDs, exM1, exM2]

/-- C3 witness: the year-2 metric of the concrete scenario satisfies the
materiality-gate characterization (its three gated fields are populated). -/
theorem residual_fields_atomic_witness :
    exM2 ∈ transformData exTs exDs ∧
    (((exM2.expected_damages = none ∧ exM2.residual = none ∧
        exM2.residual_pct = none) ∨
      (exM2.expected_damages ≠ none ∧ exM2.residual ≠ none ∧
        exM2.residual_pct ≠ none)) ∧
     (exM2.expected_damages ≠ none ↔
       ∃ er, exM2.expected_damage_rate = some er ∧ 0 < exM2.transmissions ∧
         0 < exM2.transmissions * er / 10000 ∧
         MEANINGFUL_RESIDUAL_THRESHOLD ≤
           |(exM2.actual_damages - exM2.transmissions * er / 10000) /
             (exM2.transmissions * er / 10000)|)) := by
  have hmem : exM2 ∈ transformData exTs exDs := by
    rw [ex_eval]
    simp
  exact ⟨hmem, residual_fields_atomic exTs exDs exM2 hmem⟩

/-- C4 witness: the concrete scenario has exactly one metric for key
`(AL, 1)`, and the year-1 metric carries the computed actual rate. -/
theorem transform_join_complete_witness :
    (((transformData exTs exDs).filter
        (fun m => decide (m.state = "AL" ∧ m.year = 1))).length =
      if ("AL", 1) ∈ exTs.map keyOfT ++ exDs.map keyOfD ∧
          0 < resolveVolume exTs "AL" 1 then 1 else 0) ∧
    (exM1 ∈ transformData exTs exDs ∧
      exM1.damage_rate = some (exM1.actual_damages / exM1.transmissions * 10000)) := by
  have hmem : exM1 ∈ transformData exTs exDs := by
    rw [ex_eval]
    simp
  exact ⟨(transform_join_complete exTs exDs).1 "AL" 1,
    hmem, (transform_join_complete exTs exDs).2 exM1 hmem⟩

/-- Duplicate-key input: two transmission records share key `(AL, 1)`. -/
def dupTs : List TransmissionRecord := [⟨"AL", 1, 100⟩, ⟨"AL", 1, 50⟩]

/-- Damage input for the duplicate-key scenario. -/
def dupDs : List DamageRecord := [⟨"AL", 1, 30⟩]

/-- C10: every output metric resolves its counts from the last matching
record of each input list (last-wins on map insertion), whereas the
National Baseline sums every record: on the duplicate-key input the
baseline denominator is 100 + 50 = 150 (rate 2000) while the joined
metric keeps only the last volume 50 (rate 6000). -/
theorem duplicates_lastWins_join_vs_summed_national
    (ts : List TransmissionRecord) (ds : List DamageRecord) :
    (∀ m ∈ transformData ts ds,
      m.transmissions = resolveVolume ts m.state m.year ∧
      m.actual_damages = resolveDamageCount ds m.state m.year) ∧
    (getM (calculateNationalAverages dupTs dupDs) 1 = some 2000 ∧
     (transformData dupTs dupDs).map
        (fun m => (m.transmissions, m.damage_rate)) = [(50, some 6000)]) := by
  constructor
  · intro m hm
    obtain ⟨k, hk, rfl⟩ := (mem_transformData ts ds m).1 hm
    have hkey := key_applyExpected_mkMetric (metricsMapOf ts ds)
      (calculateNationalAverages ts ds) (transmissionMapOf ts)
      (damageMapOf ds) k
    have h1 := congrArg Prod.fst hkey
    have h2 := congrArg Prod.snd hkey
    simp only at h1 h2
    rw [applyExpected_transmissions, applyExpected_actual_damages, h1, h2]
    constructor
    · show resolvedTransmissions (transmissionMapOf ts) k = _
      have : (k.1, k.2) = k := rfl
      rw [← this]
      exact resolvedTransmissions_eq ts k.1 k.2
    · show resolvedDamages (damageMapOf ds) k = _
      have : (k.1, k.2) = k := rfl
      rw [← this]
      exact resolvedDamages_eq ds k.1 k.2
  · constructor
    · norm_num [calculateNationalAverages, yearTotalsOf, addTransmissionTotal,
        addDamageTotal, addNationalRate, calculateDamageRate, getM, upsert,
        dupTs, dupDs]
    · norm_num [transformData, allMetricsOf, keptKeysOf, allKeysOf, dedupKeys,
        insertKey, keyOfT, keyOfD, transmissionMapOf, damageMapOf, upsert, getM,
        resolvedTransmissions, resolvedDamages, mkMetric, metricsMapOf,
        groupByState, pushGroup, mapValues, calculateNationalAverages,
        yearTotalsOf, addTransmissionTotal, addDamageTotal, addNationalRate,
        calculateDamageRate, applyExpected, calculateExpectedDamageRate,
        priorMetricsOf, stateHistoryOf, sortJs, insertSorted, descByYear,
        ascByYear, finalLe, strLt, listCharLt, MEANINGFUL_RESIDUAL_THRESHOLD,
        dupTs, dupDs]

/-- C10 witness: the year-1 metric of the witness scenario resolves its
counts from the (single) matching records. -/
theorem duplicates_lastWins_witness :
    exM1 ∈ transformData exTs exDs ∧
    (exM1.transmissions = resolveVolume exTs exM1.state exM1.year ∧
     exM1.actual_damages = resolveDamageCount exDs exM1.state exM1.year) := by
  have hmem : exM1 ∈ transformData exTs exDs := by
    rw [ex_eval]
    simp
  exact ⟨hmem, (duplicates_lastWins_join_vs_summed_national exTs exDs).1 exM1 hmem⟩

/-- Three-region input for the ordering witness. -/
def c8Ts : List TransmissionRecord :=
  [⟨"TX", 1, 10⟩, ⟨"CA", 1, 10⟩, ⟨"AL", 1, 10⟩]

/-- The AL metric of the ordering witness scenario. -/
def c8MAL : StateYearMetrics :=
  { state := "AL", year := 1, transmissions := 10, actual_damages := 0,
    damage_rate := some 0, expected_damage_rate := none,
    expected_damages := none, residual := none, residual_pct := none }

/-- The CA metric of the ordering witness scenario. -/
def c8MCA : StateYearMetrics :=
  { state := "CA", year := 1, transmissions := 10, actual_damages := 0,
    damage_rate := some 0, expected_damage_rate := none,
    expected_damages := none, residual := none, residual_pct := none }

/-- The TX metric of the ordering witness scenario. -/
def c8MTX : StateYearMetrics :=
  { state := "TX", year := 1, transmissions := 10, actual_damages := 0,
    damage_rate := some 0, expected_damage_rate := none,
    expected_damages := none, residual := none, residual_pct := none }

theorem c8_eval : transformData c8Ts [] = [c8MAL, c8MCA, c8MTX] := by
  have e1 : ("TX" : String) ≠ "AL" := by decide
  have e2 : ("CA" : String) ≠ "AL" := by decide
  have e3 : ("TX" : String) ≠ "CA" := by decide
  have e4 : ("AL" : String) ≠ "TX" := by decide
  have e5 : ("AL" : String) ≠ "CA" := by decide
  have e6 : ("CA" : String) ≠ "TX" := by decide
  have s1 : strLt "CA" "AL" = false := by decide
  have s2 : strLt "TX" "AL" = false := by decide
  have s3 : strLt "TX" "CA" = false := by decide
  have s4 : strLt "AL" "CA" = true := by decide
  have s5 : strLt "AL" "TX" = true := by decide
  have s6 : strLt "CA" "TX" = true := by decide
  norm_num [e1, e2, e3, e4, e5, e6, s1, s2, s3, s4, s5, s6,
    transformData, allMetricsOf, keptKeysOf, allKeysOf, dedupKeys,
    insertKey, keyOfT, keyOfD, transmissionMapOf, damageMapOf, upsert, getM,
    resolvedTransmissions, resolvedDamages, mkMetric, metricsMapOf,
    groupByState, pushGroup, mapValues, calculateNationalAverages,
    yearTotalsOf, addTransmissionTotal, addDamageTotal, addNationalRate,
    calculateDamageRate, applyExpected, calculateExpectedDamageRate,
    priorMetricsOf, stateHistoryOf, sortJs, insertSorted, descByYear,
    ascByYear, finalLe, MEANINGFUL_RESIDUAL_THRESHOLD,
    c8Ts, c8MAL, c8MCA, c8MTX]

/-- C8 witness: in the three-region output the pair following the CA
metric is the TX metric, not an AL one. -/
theorem transform_output_sorted_witness :
    List.Sublist [c8MCA, c8MTX] (transformData c8Ts []) ∧
    c8MCA.state = "CA" ∧ c8MTX.state ≠ "AL" := by
  have hsub : List.Sublist [c8MCA, c8MTX] (transformData c8Ts []) := by
    rw [c8_eval]
    exact (List.Sublist.refl [c8MCA, c8MTX]).cons c8MAL
  exact ⟨hsub, rfl, (transform_output_sorted c8Ts []).2 c8MCA c8MTX hsub rfl⟩

/-- Two-region counterexample input: region B has data only in year 2001,
region A only in year 2000. -/
def c9Ts : List TransmissionRecord :=
  [⟨"A", 2000, 100⟩, ⟨"B", 2001, 100⟩]

/-- C9 counterexample: region B has a single data year (2001), yet its
metric receives a non-null expected rate (the national baseline of year
2000, built from region A), and 2001 enters the available years solely on
region B's account — the claim's "absent expected_rate" is false. -/
theorem singleYear_region_contributes :
    (∀ t ∈ c9Ts, t.state = "B" → t.year = 2001) ∧
    (transformData c9Ts []).map (fun m => (m.state, m.expected_damage_rate)) =
      [("A", none), ("B", some 0)] ∧
    getAvailableYears (transformData c9Ts []) = [2001] := by
  have e1 : ("A" : String) ≠ "B" := by decide
  have e2 : ("B" : String) ≠ "A" := by decide
  have s1 : strLt "A" "B" = true := by decide
  have s2 : strLt "B" "A" = false := by decide
  refine ⟨by decide, ?_, ?_⟩ <;>
    norm_num [e1, e2, s1, s2,
      transformData, allMetricsOf, keptKeysOf, allKeysOf, dedupKeys,
      insertKey, keyOfT, keyOfD, transmissionMapOf, damageMapOf, upsert, getM,
      resolvedTransmissions, resolvedDamages, mkMetric, metricsMapOf,
      groupByState, pushGroup, mapValues, calculateNationalAverages,
      yearTotalsOf, addTransmissionTotal, addDamageTotal, addNationalRate,
      calculateDamageRate, applyExpected, calculateExpectedDamageRate,
      priorMetricsOf, stateHistoryOf, sortJs, insertSorted, descByYear,
      ascByYear, finalLe, MEANINGFUL_RESIDUAL_THRESHOLD,
      getAvailableYears, numericStringLe, c9Ts]

theorem keptKey_year_eq (ts : List TransmissionRecord)
    (ds : List DamageRecord) (R : String) (Y0 : Nat)
    (hts : ∀ t ∈ ts, t.state = R → t.year = Y0)
    (hds : ∀ d ∈ ds, d.state = R → d.year = Y0)
    (k : String × Nat) (hk : k ∈ keptKeysOf ts ds) (hR : k.1 = R) :
    k.2 = Y0 := by
  have hmem := ((mem_keptKeysOf ts ds k).1 hk).1
  rcases List.mem_append.1 hmem with h | h
  · obtain ⟨t, ht, hkey⟩ := List.mem_map.1 h
    have h1 : t.state = k.1 := congrArg Prod.fst hkey
    have h2 : t.year = k.2 := congrArg Prod.snd hkey
    rw [← h2]
    exact hts t ht (h1.trans hR)
  · obtain ⟨d, hd, hkey⟩ := List.mem_map.1 h
    have h1 : d.state = k.1 := congrArg Prod.fst hkey
    have h2 : d.year = k.2 := congrArg Prod.snd hkey
    rw [← h2]
    exact hds d hd (h1.trans hR)

/-- C9 amended: a region whose records all lie in the single year `Y0`
contributes nothing to available years on its own account provided the
national baseline has no entry for `Y0 - 1` (for instance in a
single-region dataset): all its metrics then carry an absent expected
rate.  In general the single-year region falls back to the national
baseline of `Y0 - 1`, which other regions' data may well populate. -/
theorem singleYear_region_no_contribution (ts : List TransmissionRecord)
    (ds : List DamageRecord) (R : String) (Y0 : Nat)
    (hts : ∀ t ∈ ts, t.state = R → t.year = Y0)
    (hds : ∀ d ∈ ds, d.state = R → d.year = Y0)
    (hnat : getM (calculateNationalAverages ts ds) ((Y0 : Int) - 1) = none) :
    ∀ m ∈ transformData ts ds, m.state = R → m.expected_damage_rate = none := by
  intro m hm hR
  obtain ⟨k, hk, rfl⟩ := (mem_transformData ts ds m).1 hm
  have hkey := key_applyExpected_mkMetric (metricsMapOf ts ds)
    (calculateNationalAverages ts ds) (transmissionMapOf ts)
    (damageMapOf ds) k
  have hk1 : k.1 = R := by
    rw [← congrArg Prod.fst hkey]
    exact hR
  have hk2 : k.2 = Y0 := keptKey_year_eq ts ds R Y0 hts hds k hk hk1
  rw [applyExpected_expected_rate]
  have hstate : (mkMetric (transmissionMapOf ts) (damageMapOf ds) k).state = k.1 := rfl
  have hyear : (mkMetric (transmissionMapOf ts) (damageMapOf ds) k).year = k.2 := rfl
  rw [hstate, hyear, hk1, hk2]
  have hpriors : priorMetricsOf (metricsMapOf ts ds) R Y0 = [] := by
    unfold priorMetricsOf
    rw [List.filter_eq_nil]
    intro x hx hcond
    rw [stateHistoryOf_metricsMapOf] at hx
    have hx2 := (perm_sortJs ascByYear _).mem_iff.1 hx
    have hx3 := List.mem_filter.1 hx2
    obtain ⟨k2, hk2mem, hk2eq⟩ := List.mem_map.1 hx3.1
    have hxR : x.state = R := by simpa using hx3.2
    have hk21 : k2.1 = R := by
      have : (mkMetric (transmissionMapOf ts) (damageMapOf ds) k2).state = k2.1 := rfl
      rw [← this, hk2eq]
      exact hxR
    have hk22 : k2.2 = Y0 := keptKey_year_eq ts ds R Y0 hts hds k2 hk2mem hk21
    have hxy : x.year = Y0 := by
      have : (mkMetric (transmissionMapOf ts) (damageMapOf ds) k2).year = k2.2 := rfl
      rw [← hk2eq, this, hk22]
    rw [Bool.and_eq_true, decide_eq_true_eq, hxy] at hcond
    exact absurd hcond.1 (Nat.lt_irrefl Y0)
  unfold calculateExpectedDamageRate
  rw [hpriors]
  have hempty : (((sortJs descByYear
      ([] : List StateYearMetrics)).take 3).map
      (fun m => m.damage_rate.getD 0)).length = 0 := rfl
  rw [if_neg (by rw [hempty]; exact Nat.lt_irrefl 0)]
  exact hnat

/-- Single-region witness input for the amended single-year claim. -/
def c9wTs : List TransmissionRecord := [⟨"A", 5, 100⟩]

/-- C9 witness: the lone region A with a single year 5 and no national
baseline for year 4 ends with an absent expected rate. -/
theorem singleYear_region_no_contribution_witness :
    (∀ t ∈ c9wTs, t.state = "A" → t.year = 5) ∧
    getM (calculateNationalAverages c9wTs []) ((5 : Int) - 1) = none ∧
    (∀ m ∈ transformData c9wTs [], m.state = "A" →
      m.expected_damage_rate = none) := by
  have hnat : getM (calculateNationalAverages c9wTs []) ((5 : Int) - 1) = none := by
    norm_num [calculateNationalAverages, yearTotalsOf, addTransmissionTotal,
      addDamageTotal, addNationalRate, calculateDamageRate, getM, upsert, c9wTs]
  exact ⟨by decide, hnat,
    singleYear_region_no_contribution c9wTs [] "A" 5 (by decide) (by decide) hnat⟩

/-- Transmission records that are not region-`R` records of year `≥ Y`
(the records two runs must agree on for the no-look-ahead property). -/
def pastOnlyT (R : String) (Y : Nat) (t : TransmissionRecord) : Bool :=
  !decide (t.state = R ∧ Y ≤ t.year)

/-- Damage records that are not region-`R` records of year `≥ Y`. -/
def pastOnlyD (R : String) (Y : Nat) (d : DamageRecord) : Bool :=
  !decide (d.state = R ∧ Y ≤ d.year)

theorem filter_eq_of_filter_eq {α : Type} (keep p : α → Bool)
    (l1 l2 : List α) (h : l1.filter keep = l2.filter keep)
    (himp : ∀ a, p a = true → keep a = true) :
    l1.filter p = l2.filter p := by
  have key : ∀ (l : List α), l.filter p = (l.filter keep).filter p := by
    intro l
    rw [List.filter_filter]
    apply List.filter_congr
    intro a _
    by_cases hp : p a
    · simp [hp, himp a hp]
    · have hp2 : p a = false := by simpa using hp
      simp [hp2]
  rw [key l1, key l2, h]

theorem getM_transmissionMap_agree (ts ts2 : List TransmissionRecord)
    (R : String) (Y : Nat)
    (h : ts.filter (pastOnlyT R Y) = ts2.filter (pastOnlyT R Y))
    (y : Nat) (hy : y < Y) :
    getM (transmissionMapOf ts) (R, y) = getM (transmissionMapOf ts2) (R, y) := by
  rw [getM_transmissionMapOf, getM_transmissionMapOf,
    lastSuch_eq_getLast, lastSuch_eq_getLast]
  have hf := filter_eq_of_filter_eq (pastOnlyT R Y)
    (fun t => decide (keyOfT t = (R, y))) ts ts2 h ?_
  · rw [hf]
  · intro t hp
    rw [decide_eq_true_eq] at hp
    have h1 : t.year = y := congrArg Prod.snd hp
    unfold pastOnlyT
    simp [h1, Nat.not_le.2 hy]

theorem getM_damageMap_agree (ds ds2 : List DamageRecord)
    (R : String) (Y : Nat)
    (h : ds.filter (pastOnlyD R Y) = ds2.filter (pastOnlyD R Y))
    (y : Nat) (hy : y < Y) :
    getM (damageMapOf ds) (R, y) = getM (damageMapOf ds2) (R, y) := by
  rw [getM_damageMapOf, getM_damageMapOf,
    lastSuch_eq_getLast, lastSuch_eq_getLast]
  have hf := filter_eq_of_filter_eq (pastOnlyD R Y)
    (fun d => decide (keyOfD d = (R, y))) ds ds2 h ?_
  · rw [hf]
  · intro d hp
    rw [decide_eq_true_eq] at hp
    have h1 : d.year = y := congrArg Prod.snd hp
    unfold pastOnlyD
    simp [h1, Nat.not_le.2 hy]

theorem national_agree (ts ts2 : List TransmissionRecord)
    (ds ds2 : List DamageRecord) (R : String) (Y : Nat)
    (hts : ts.filter (pastOnlyT R Y) = ts2.filter (pastOnlyT R Y))
    (hds : ds.filter (pastOnlyD R Y) = ds2.filter (pastOnlyD R Y))
    (i : Int) (hi : i < (Y : Int)) :
    getM (calculateNationalAverages ts ds) i =
      getM (calculateNationalAverages ts2 ds2) i := by
  have hft : ts.filter (fun t => decide ((t.year : Int) = i)) =
      ts2.filter (fun t => decide ((t.year : Int) = i)) := by
    apply filter_eq_of_filter_eq (pastOnlyT R Y) _ ts ts2 hts
    intro t hp
    rw [decide_eq_true_eq] at hp
    have h1 : (t.year : Int) < (Y : Int) := hp ▸ hi
    have h2 : t.year < Y := Int.ofNat_lt.1 h1
    unfold pastOnlyT
    simp [Nat.not_le.2 h2]
  have hfd : ds.filter (fun d => decide ((d.year : Int) = i)) =
      ds2.filter (fun d => decide ((d.year : Int) = i)) := by
    apply filter_eq_of_filter_eq (pastOnlyD R Y) _ ds ds2 hds
    intro d hp
    rw [decide_eq_true_eq] at hp
    have h1 : (d.year : Int) < (Y : Int) := hp ▸ hi
    have h2 : d.year < Y := Int.ofNat_lt.1 h1
    unfold pastOnlyD
    simp [Nat.not_le.2 h2]
  have hsv : sumVolume ts i = sumVolume ts2 i := by
    unfold sumVolume
    rw [hft]
  have hsd : sumDamages ds i = sumDamages ds2 i := by
    unfold sumDamages
    rw [hfd]
  rw [getM_calculateNationalAverages, getM_calculateNationalAverages,
    hft, hfd, hsv, hsd]

theorem getLast_eq_some_mem {α : Type} (l : List α) (a : α)
    (h : l.getLast? = some a) : a ∈ l := by
  have h2 : a ∈ l.getLast? := by
    rw [h]
    rfl
  obtain ⟨hne, heq⟩ := List.mem_getLast?_eq_getLast h2
  rw [heq]
  exact List.getLast_mem hne

theorem mem_keyOfT_of_resolveVolume_pos (ts : List TransmissionRecord)
    (s : String) (y : Nat) (h : 0 < resolveVolume ts s y) :
    (s, y) ∈ ts.map keyOfT := by
  unfold resolveVolume lastTransmissionFor at h
  cases hl : (ts.filter (fun t => decide (t.state = s ∧ t.year = y))).getLast? with
  | none =>
    rw [hl] at h
    simp at h
  | some t =>
    have htm := getLast_eq_some_mem _ t hl
    have := List.mem_filter.1 htm
    rw [decide_eq_true_eq] at this
    refine List.mem_map.2 ⟨t, this.1, ?_⟩
    unfold keyOfT
    rw [this.2.1, this.2.2]

theorem mkMetric_rate_isSome (ts : List TransmissionRecord)
    (ds : List DamageRecord) (k : String × Nat) (hk : k ∈ keptKeysOf ts ds) :
    (mkMetric (transmissionMapOf ts) (damageMapOf ds) k).damage_rate.isSome = true := by
  have hvol : 0 < resolvedTransmissions (transmissionMapOf ts) k := by
    have h1 := ((mem_keptKeysOf ts ds k).1 hk).2
    have h2 : resolvedTransmissions (transmissionMapOf ts) k =
        resolveVolume ts k.1 k.2 := by
      have he : (k.1, k.2) = k := rfl
      rw [← he]
      exact resolvedTransmissions_eq ts k.1 k.2
    rw [h2]
    exact h1
  show (calculateDamageRate (resolvedDamages (damageMapOf ds) k)
    (resolvedTransmissions (transmissionMapOf ts) k)).isSome = true
  unfold calculateDamageRate
  rw [if_neg (not_le_of_lt hvol)]
  rfl

theorem mkMetric_agree (tM1 tM2 : List ((String × Nat) × TransmissionRecord))
    (dM1 dM2 : List ((String × Nat) × DamageRecord)) (k : String × Nat)
    (h1 : getM tM1 k = getM tM2 k) (h2 : getM dM1 k = getM dM2 k) :
    mkMetric tM1 dM1 k = mkMetric tM2 dM2 k := by
  unfold mkMetric resolvedTransmissions resolvedDamages
  rw [h1, h2]

theorem priorMetricsOf_pipeline (ts : List TransmissionRecord)
    (ds : List DamageRecord) (R : String) (Y : Nat) :
    priorMetricsOf (metricsMapOf ts ds) R Y =
      sortJs ascByYear
        (((keptKeysOf ts ds).filter
            (fun k => decide (k.2 < Y) && decide (k.1 = R))).map
          (mkMetric (transmissionMapOf ts) (damageMapOf ds))) := by
  unfold priorMetricsOf
  rw [stateHistoryOf_metricsMapOf,
    filter_sortJs ascByYear _ ascByYear_total ascByYear_trans]
  congr 1
  rw [List.filter_filter]
  unfold allMetricsOf
  rw [List.filter_map]
  congr 1
  apply List.filter_congr
  intro k hk
  simp only [Function.comp]
  rw [mkMetric_rate_isSome ts ds k hk]
  have hy : (mkMetric (transmissionMapOf ts) (damageMapOf ds) k).year = k.2 := rfl
  have hs : (mkMetric (transmissionMapOf ts) (damageMapOf ds) k).state = k.1 := rfl
  rw [hy, hs, Bool.and_true]

theorem priors_agree (ts ts2 : List TransmissionRecord)
    (ds ds2 : List DamageRecord) (R : String) (Y : Nat)
    (hts : ts.filter (pastOnlyT R Y) = ts2.filter (pastOnlyT R Y))
    (hds : ds.filter (pastOnlyD R Y) = ds2.filter (pastOnlyD R Y)) :
    priorMetricsOf (metricsMapOf ts ds) R Y =
      priorMetricsOf (metricsMapOf ts2 ds2) R Y := by
  rw [priorMetricsOf_pipeline, priorMetricsOf_pipeline]
  have hq : ∀ (ts0 : List TransmissionRecord) (ds0 : List DamageRecord),
      (keptKeysOf ts0 ds0).filter (fun k => decide (k.2 < Y) && decide (k.1 = R)) =
      ((allKeysOf ts0 ds0).filter
        (fun k => decide (k.2 < Y) && decide (k.1 = R))).filter
        (fun key => !decide (resolvedTransmissions (transmissionMapOf ts0) key ≤ 0)) := by
    intro ts0 ds0
    unfold keptKeysOf
    rw [List.filter_filter, List.filter_filter]
    apply List.filter_congr
    intro k _
    exact Bool.and_comm _ _
  rw [hq ts ds, hq ts2 ds2]
  have hKL : (allKeysOf ts ds).filter
      (fun k => decide (k.2 < Y) && decide (k.1 = R)) =
      (allKeysOf ts2 ds2).filter
      (fun k => decide (k.2 < Y) && decide (k.1 = R)) := by
    unfold allKeysOf
    rw [filter_dedupKeys, filter_dedupKeys, List.filter_append,
      List.filter_append, List.filter_map, List.filter_map,
      List.filter_map, List.filter_map]
    have h1 : ts.filter ((fun k : String × Nat =>
        decide (k.2 < Y) && decide (k.1 = R)) ∘ keyOfT) =
        ts2.filter ((fun k : String × Nat =>
        decide (k.2 < Y) && decide (k.1 = R)) ∘ keyOfT) := by
      apply filter_eq_of_filter_eq (pastOnlyT R Y) _ ts ts2 hts
      intro t hp
      simp only [Function.comp, keyOfT, Bool.and_eq_true, decide_eq_true_eq] at hp
      unfold pastOnlyT
      simp [Nat.not_le.2 hp.1]
    have h2 : ds.filter ((fun k : String × Nat =>
        decide (k.2 < Y) && decide (k.1 = R)) ∘ keyOfD) =
        ds2.filter ((fun k : String × Nat =>
        decide (k.2 < Y) && decide (k.1 = R)) ∘ keyOfD) := by
      apply filter_eq_of_filter_eq (pastOnlyD R Y) _ ds ds2 hds
      intro d hp
      simp only [Function.comp, keyOfD, Bool.and_eq_true, decide_eq_true_eq] at hp
      unfold pastOnlyD
      simp [Nat.not_le.2 hp.1]
    rw [h1, h2]
  rw [hKL]
  have hmemprop : ∀ k ∈ (allKeysOf ts2 ds2).filter
      (fun k => decide (k.2 < Y) && decide (k.1 = R)),
      k.1 = R ∧ k.2 < Y := by
    intro k hk
    have h1 := (List.mem_filter.1 hk).2
    rw [Bool.and_eq_true, decide_eq_true_eq, decide_eq_true_eq] at h1
    exact ⟨h1.2, h1.1⟩
  have hgetT : ∀ k ∈ (allKeysOf ts2 ds2).filter
      (fun k => decide (k.2 < Y) && decide (k.1 = R)),
      getM (transmissionMapOf ts) k = getM (transmissionMapOf ts2) k := by
    intro k hk
    obtain ⟨h1, h2⟩ := hmemprop k hk
    have hke : k = (R, k.2) := by
      rw [← h1]
    rw [hke]
    exact getM_transmissionMap_agree ts ts2 R Y hts k.2 h2
  have hgetD : ∀ k ∈ (allKeysOf ts2 ds2).filter
      (fun k => decide (k.2 < Y) && decide (k.1 = R)),
      getM (damageMapOf ds) k = getM (damageMapOf ds2) k := by
    intro k hk
    obtain ⟨h1, h2⟩ := hmemprop k hk
    have hke : k = (R, k.2) := by
      rw [← h1]
    rw [hke]
    exact getM_damageMap_agree ds ds2 R Y hds k.2 h2
  have hvfilter : ((allKeysOf ts2 ds2).filter
      (fun k => decide (k.2 < Y) && decide (k.1 = R))).filter
      (fun key => !decide (resolvedTransmissions (transmissionMapOf ts) key ≤ 0)) =
      ((allKeysOf ts2 ds2).filter
      (fun k => decide (k.2 < Y) && decide (k.1 = R))).filter
      (fun key => !decide (resolvedTransmissions (transmissionMapOf ts2) key ≤ 0)) := by
    apply List.filter_congr
    intro k hk
    unfold resolvedTransmissions
    rw [hgetT k hk]
  rw [hvfilter]
  congr 1
  apply List.map_congr_left
  intro k hk
  have hk2 := (List.mem_filter.1 hk).1
  exact mkMetric_agree _ _ _ _ k (hgetT k hk2) (hgetD k hk2)

theorem expectedRate_agree (ts ts2 : List TransmissionRecord)
    (ds ds2 : List DamageRecord) (R : String) (Y : Nat)
    (hts : ts.filter (pastOnlyT R Y) = ts2.filter (pastOnlyT R Y))
    (hds : ds.filter (pastOnlyD R Y) = ds2.filter (pastOnlyD R Y)) :
    calculateExpectedDamageRate R Y (metricsMapOf ts ds)
        (calculateNationalAverages ts ds) =
      calculateExpectedDamageRate R Y (metricsMapOf ts2 ds2)
        (calculateNationalAverages ts2 ds2) := by
  unfold calculateExpectedDamageRate
  rw [priors_agree ts ts2 ds ds2 R Y hts hds]
  by_cases h : 0 < (((sortJs descByYear
      (priorMetricsOf (metricsMapOf ts2 ds2) R Y)).take 3).map
      (fun m => m.damage_rate.getD 0)).length
  · rw [if_pos h, if_pos h]
  · rw [if_neg h, if_neg h]
    exact national_agree ts ts2 ds ds2 R Y hts hds ((Y : Int) - 1) (by omega)

theorem exists_metric_at (ts : List TransmissionRecord)
    (ds : List DamageRecord) (R : String) (Y : Nat)
    (hv : 0 < resolveVolume ts R Y) :
    ∃ m ∈ transformData ts ds, m.state = R ∧ m.year = Y := by
  have hkept : (R, Y) ∈ keptKeysOf ts ds :=
    (mem_keptKeysOf ts ds (R, Y)).2
      ⟨List.mem_append.2 (Or.inl (mem_keyOfT_of_resolveVolume_pos ts R Y hv)), hv⟩
  refine ⟨applyExpected (metricsMapOf ts ds) (calculateNationalAverages ts ds)
    (mkMetric (transmissionMapOf ts) (damageMapOf ds) (R, Y)),
    (mem_transformData ts ds _).2 ⟨(R, Y), hkept, rfl⟩, ?_, ?_⟩
  · exact congrArg Prod.fst (key_applyExpected_mkMetric _ _ _ _ (R, Y))
  · exact congrArg Prod.snd (key_applyExpected_mkMetric _ _ _ _ (R, Y))

/-- C6 (no look-ahead): two runs whose inputs agree on every record except
region-`R` records of year `≥ Y`, and in which region `R` resolves a
positive volume at year `Y` in both, both produce a metric at `(R, Y)`,
and those metrics carry the same expected rate — the `(R, Y)` expected
rate never depends on region-`R` data of year `≥ Y`. -/
theorem no_lookahead (ts ts2 : List TransmissionRecord)
    (ds ds2 : List DamageRecord) (R : String) (Y : Nat)
    (hts : ts.filter (pastOnlyT R Y) = ts2.filter (pastOnlyT R Y))
    (hds : ds.filter (pastOnlyD R Y) = ds2.filter (pastOnlyD R Y))
    (hv1 : 0 < resolveVolume ts R Y) (hv2 : 0 < resolveVolume ts2 R Y) :
    (∃ m ∈ transformData ts ds, m.state = R ∧ m.year = Y) ∧
    (∃ m ∈ transformData ts2 ds2, m.state = R ∧ m.year = Y) ∧
    (∀ m1 m2, m1 ∈ transformData ts ds → m2 ∈ transformData ts2 ds2 →
      m1.state = R → m1.year = Y → m2.state = R → m2.year = Y →
      m1.expected_damage_rate = m2.expected_damage_rate) := by
  refine ⟨exists_metric_at ts ds R Y hv1, exists_metric_at ts2 ds2 R Y hv2, ?_⟩
  intro m1 m2 hm1 hm2 hs1 hy1 hs2 hy2
  obtain ⟨k1, hk1, rfl⟩ := (mem_transformData ts ds m1).1 hm1
  obtain ⟨k2, hk2, rfl⟩ := (mem_transformData ts2 ds2 m2).1 hm2
  have hkey1 := key_applyExpected_mkMetric (metricsMapOf ts ds)
    (calculateNationalAverages ts ds) (transmissionMapOf ts)
    (damageMapOf ds) k1
  have hkey2 := key_applyExpected_mkMetric (metricsMapOf ts2 ds2)
    (calculateNationalAverages ts2 ds2) (transmissionMapOf ts2)
    (damageMapOf ds2) k2
  have hk1e : k1 = (R, Y) := by
    rw [← hkey1, hs1, hy1]
  have hk2e : k2 = (R, Y) := by
    rw [← hkey2, hs2, hy2]
  subst hk1e
  subst hk2e
  rw [applyExpected_expected_rate, applyExpected_expected_rate]
  show calculateExpectedDamageRate R Y (metricsMapOf ts ds)
      (calculateNationalAverages ts ds) =
    calculateExpectedDamageRate R Y (metricsMapOf ts2 ds2)
      (calculateNationalAverages ts2 ds2)
  exact expectedRate_agree ts ts2 ds ds2 R Y hts hds

/-- First no-look-ahead witness input: region A, year 1 only. -/
def c6ts : List TransmissionRecord := [⟨"A", 1, 10⟩]

/-- Second no-look-ahead witness input: same as the first plus a future
(year-2) record for region A. -/
def c6ts2 : List TransmissionRecord := [⟨"A", 1, 10⟩, ⟨"A", 2, 5⟩]

/-- C6 witness: adding a future year-2 record for region A leaves the
year-1 expected rate computation untouched. -/
theorem no_lookahead_witness :
    c6ts.filter (pastOnlyT "A" 1) = c6ts2.filter (pastOnlyT "A" 1) ∧
    ([] : List DamageRecord).filter (pastOnlyD "A" 1) =
      ([] : List DamageRecord).filter (pastOnlyD "A" 1) ∧
    0 < resolveVolume c6ts "A" 1 ∧ 0 < resolveVolume c6ts2 "A" 1 ∧
    ((∃ m ∈ transformData c6ts [], m.state = "A" ∧ m.year = 1) ∧
     (∃ m ∈ transformData c6ts2 [], m.state = "A" ∧ m.year = 1) ∧
     (∀ m1 m2, m1 ∈ transformData c6ts [] → m2 ∈ transformData c6ts2 [] →
       m1.state = "A" → m1.year = 1 → m2.state = "A" → m2.year = 1 →
       m1.expected_damage_rate = m2.expected_damage_rate)) := by
  have hts : c6ts.filter (pastOnlyT "A" 1) = c6ts2.filter (pastOnlyT "A" 1) := by
    decide
  have hds : ([] : List DamageRecord).filter (pastOnlyD "A" 1) =
      ([] : List DamageRecord).filter (pastOnlyD "A" 1) := rfl
  have hv1 : 0 < resolveVolume c6ts "A" 1 := by
    norm_num [resolveVolume, lastTransmissionFor, c6ts]
  have hv2 : 0 < resolveVolume c6ts2 "A" 1 := by
    norm_num [resolveVolume, lastTransmissionFor, c6ts2]
  exact ⟨hts, hds, hv1, hv2,
    no_lookahead c6ts c6ts2 [] [] "A" 1 hts hds hv1 hv2⟩
